import Mathlib

/-! Verification of the s2cell library (S2 cell ID, token and lat/lon
conversions).

Shallow embedding of `src/s2cell/s2cell.py`.  Python strings are modelled as
lists of Unicode code points (`List ℕ`); Python unbounded integers are `ℕ`/`ℤ`
as appropriate; IEEE-754 floats are modelled by exact real numbers (used only
where every floating-point operation involved is exact).  Fallible functions
return `Except S2Error`.

Python bit tricks on negative numbers are translated as follows, for the
arguments that actually reach them (the library validates `cell_id < 6·2^61`
before using them):
* `x & -m` with `m = 2^k` (clear the low `k` bits): `x &&& (2^64 - 2^k)`,
  which agrees with Python's arbitrary-precision result whenever `x < 2^64`.
* `x & (~x + 1)` (lowest set bit): `x &&& (2^64 - x)`, which agrees with
  Python's arbitrary-precision result whenever `0 < x < 2^64`.
-/

set_option maxRecDepth 20000

/-- Error kinds raised by the library: `InvalidCellID`, `InvalidToken`, the
Python `ValueError` (bad level, or a failed `int(…, 16)` parse). -/
inductive S2Error where
  | invalidCellID
  | invalidToken
  | valueError
  deriving DecidableEq, Repr

/-- Decidable equality on `Except` results, so that concrete runs of the
fallible operations can be checked by `decide`. -/
instance {ε α : Type} [DecidableEq ε] [DecidableEq α] :
    DecidableEq (Except ε α) := fun a b =>
  match a, b with
  | .error x, .error y => decidable_of_iff (x = y) (by simp)
  | .ok x, .ok y => decidable_of_iff (x = y) (by simp)
  | .error _, .ok _ => isFalse (fun h => Except.noConfusion h)
  | .ok _, .error _ => isFalse (fun h => Except.noConfusion h)

/-- Fuel-driven loop body for `ctz`: while the value is nonzero and even,
shift right and count.  Structural recursion on the fuel keeps kernel
reduction available; `ctz` below supplies always-sufficient fuel. -/
def ctzFuel : ℕ → ℕ → ℕ
  | 0, _ => 0
  | fuel + 1, n =>
    if n % 2 = 1 ∨ n = 0 then 0 else ctzFuel fuel (n / 2) + 1

/-- Count of trailing zero bits; embeds the `while` loop of
`cell_id_to_level` (`lsb_pos` accumulation).  Returns 0 on input 0 like the
Python loop.  The loop runs at most `ctz n + 1 ≤ n` times for `n ≥ 1`, so
`n` itself is sufficient fuel. -/
def ctz (n : ℕ) : ℕ := ctzFuel n n

/-!  ## S2 base constants (from the source header) -/

/-- Constant `_S2_MAX_LEVEL = 30`. -/
def S2_MAX_LEVEL : ℕ := 30

/-- Constant `_S2_POS_BITS = 2 * 30 + 1 = 61`. -/
def S2_POS_BITS : ℕ := 61

/-- Table `_S2_POS_TO_IJ`: two bits of IJ from two bits of curve position, per
orientation. -/
def S2_POS_TO_IJ : List (List ℕ) :=
  [[0, 1, 3, 2],
   [0, 2, 3, 1],
   [3, 2, 0, 1],
   [3, 1, 0, 2]]

/-- Table `_S2_POS_TO_ORIENTATION_MASK = [SWAP, 0, 0, SWAP | INVERT]`. -/
def S2_POS_TO_ORIENTATION_MASK : List ℕ := [1, 0, 0, 3]

/-- The inner loop of `_s2_init_lookups`: starting from `base_orientation`,
walk the four 2-bit groups of `pos` from most to least significant,
accumulating the packed `iiiijjjj` IJ bits and the running orientation. -/
def ijWalk (base_orientation pos : ℕ) : ℕ × ℕ :=
  List.foldl (fun (p : ℕ × ℕ) bit_pair_offset =>
    let bit_pair := (pos >>> ((3 - bit_pair_offset) * 2)) &&& 3
    let ij_bits := (S2_POS_TO_IJ.getD p.2 []).getD bit_pair 0
    let ij := (p.1 <<< 1) ||| ((ij_bits &&& 2) <<< 3) ||| (ij_bits &&& 1)
    (ij, p.2 ^^^ (S2_POS_TO_ORIENTATION_MASK.getD bit_pair 0)))
    (0, base_orientation) [0, 1, 2, 3]

/-- Source `_s2_init_lookups`: builds the pair `(_S2_LOOKUP_POS, _S2_LOOKUP_IJ)` of
1024-entry tables, iterating over the four base orientations and the 256
level-4 Hilbert-curve positions, exactly as the Python loop does. -/
def s2_init_lookups : List ℕ × List ℕ :=
  List.foldl (fun tabs base_orientation =>
    List.foldl (fun (tabs : List ℕ × List ℕ) pos =>
      let st := ijWalk base_orientation pos
      let ij2 := st.1 <<< 2
      let pos2 := pos <<< 2
      (tabs.1.set (ij2 ||| base_orientation) (pos2 ||| st.2),
       tabs.2.set (pos2 ||| base_orientation) (ij2 ||| st.2)))
      tabs (List.range 256))
    (List.replicate 1024 0, List.replicate 1024 0) [0, 1, 2, 3]

/-- Inverse of one `ijWalk` step: the curve-position bit pair whose IJ bits
are `ij_bits` under the given orientation, i.e. the index of `ij_bits` in
the `S2_POS_TO_IJ` row of that orientation (each row is a permutation of
`0–3`). -/
def posOfIJBits (orientation ij_bits : ℕ) : ℕ :=
  (S2_POS_TO_IJ.getD orientation []).indexOf ij_bits

/-- Inverse of `ijWalk`: recover the 8 curve-position bits (and final
orientation) from packed `iiiijjjj` IJ bits.  `lookup_tables_inverse` below
certifies that it inverts `ijWalk` on the whole table domain. -/
def posWalk (base_orientation ij : ℕ) : ℕ × ℕ :=
  List.foldl (fun (p : ℕ × ℕ) t =>
    let ij_bits := (((ij >>> (7 - t)) &&& 1) <<< 1) ||| ((ij >>> (3 - t)) &&& 1)
    let bit_pair := posOfIJBits p.2 ij_bits
    ((p.1 <<< 2) ||| bit_pair,
     p.2 ^^^ (S2_POS_TO_ORIENTATION_MASK.getD bit_pair 0)))
    (0, base_orientation) [0, 1, 2, 3]

/-- Table `_S2_LOOKUP_POS`: 10 bits of IJ + orientation to curve position +
orientation.  Stored as an explicit 1024-entry literal for cheap kernel
evaluation; the lemma `s2_init_lookups_eval` below proves that it is exactly
the table built by `s2_init_lookups`. -/
def S2_LOOKUP_POS : List ℕ :=
  [0, 1, 682, 683, 14, 4, 685, 679, 17, 58, 688, 667, 20, 61, 702, 663, 234,
   64, 705, 619, 237, 78, 708, 615, 240, 81, 762, 603, 254, 84, 765, 599,
   257, 938, 768, 427, 260, 941, 782, 423, 314, 944, 785, 411, 317, 958,
   788, 407, 320, 961, 1002, 363, 334, 964, 1005, 359, 337, 1018, 1008, 347,
   340, 1021, 1022, 343, 5, 15, 678, 684, 9, 8, 675, 674, 31, 54, 693, 668,
   24, 51, 697, 658, 230, 69, 719, 620, 227, 73, 712, 610, 245, 95, 758,
   604, 249, 88, 755, 594, 271, 934, 773, 428, 264, 931, 777, 418, 310, 949,
   799, 412, 307, 953, 792, 402, 325, 975, 998, 364, 329, 968, 995, 354,
   351, 1014, 1013, 348, 344, 1011, 1017, 338, 59, 16, 666, 689, 55, 30,
   669, 692, 33, 32, 651, 650, 36, 46, 647, 653, 218, 123, 720, 625, 221,
   119, 734, 628, 203, 97, 736, 586, 199, 100, 750, 589, 272, 922, 827, 433,
   286, 925, 823, 436, 288, 907, 801, 394, 302, 903, 804, 397, 379, 976,
   986, 369, 375, 990, 989, 372, 353, 992, 971, 330, 356, 1006, 967, 333,
   60, 21, 662, 703, 50, 25, 659, 696, 47, 37, 652, 646, 40, 41, 642, 643,
   214, 124, 725, 639, 211, 114, 729, 632, 204, 111, 741, 582, 194, 104,
   745, 579, 277, 918, 828, 447, 281, 915, 818, 440, 293, 908, 815, 390,
   297, 898, 808, 387, 380, 981, 982, 383, 370, 985, 979, 376, 367, 997,
   972, 326, 360, 1001, 962, 323, 65, 235, 618, 704, 68, 231, 621, 718, 122,
   219, 624, 721, 125, 215, 638, 724, 129, 128, 555, 554, 132, 142, 551,
   557, 186, 145, 539, 560, 189, 148, 535, 574, 491, 874, 833, 448, 487,
   877, 836, 462, 475, 880, 890, 465, 471, 894, 893, 468, 384, 811, 897,
   298, 398, 807, 900, 301, 401, 795, 954, 304, 404, 791, 957, 318, 79, 236,
   614, 709, 72, 226, 611, 713, 118, 220, 629, 735, 115, 210, 633, 728, 143,
   133, 556, 550, 136, 137, 546, 547, 182, 159, 540, 565, 179, 152, 530,
   569, 492, 870, 847, 453, 482, 867, 840, 457, 476, 885, 886, 479, 466,
   889, 883, 472, 389, 812, 911, 294, 393, 802, 904, 291, 415, 796, 950,
   309, 408, 786, 947, 313, 80, 241, 602, 763, 94, 244, 605, 759, 96, 202,
   587, 737, 110, 205, 583, 740, 144, 187, 561, 538, 158, 183, 564, 541,
   160, 161, 522, 523, 174, 164, 525, 519, 497, 858, 848, 507, 500, 861,
   862, 503, 458, 843, 864, 481, 461, 839, 878, 484, 443, 817, 912, 282,
   439, 820, 926, 285, 417, 778, 928, 267, 420, 781, 942, 263, 85, 255, 598,
   764, 89, 248, 595, 754, 101, 198, 588, 751, 105, 195, 578, 744, 149, 188,
   575, 534, 153, 178, 568, 531, 165, 175, 518, 524, 169, 168, 515, 514,
   511, 854, 853, 508, 504, 851, 857, 498, 454, 844, 869, 495, 451, 834,
   873, 488, 444, 831, 917, 278, 434, 824, 921, 275, 431, 774, 933, 268,
   424, 771, 937, 258, 939, 256, 426, 769, 935, 270, 429, 772, 923, 273,
   432, 826, 919, 276, 446, 829, 875, 490, 449, 832, 871, 493, 452, 846,
   859, 496, 506, 849, 855, 510, 509, 852, 513, 512, 171, 170, 516, 526,
   167, 173, 570, 529, 155, 176, 573, 532, 151, 190, 576, 746, 107, 193,
   590, 749, 103, 196, 593, 752, 91, 250, 596, 766, 87, 253, 940, 261, 422,
   783, 930, 265, 419, 776, 924, 287, 437, 822, 914, 280, 441, 819, 876,
   486, 463, 837, 866, 483, 456, 841, 860, 501, 502, 863, 850, 505, 499,
   856, 527, 517, 172, 166, 520, 521, 162, 163, 566, 543, 156, 181, 563,
   536, 146, 185, 581, 742, 108, 207, 585, 739, 98, 200, 607, 757, 92, 246,
   600, 761, 82, 243, 945, 315, 410, 784, 948, 311, 413, 798, 906, 289, 395,
   800, 909, 292, 391, 814, 881, 474, 464, 891, 884, 477, 478, 887, 842,
   459, 480, 865, 845, 455, 494, 868, 528, 571, 177, 154, 542, 567, 180,
   157, 544, 545, 138, 139, 558, 548, 141, 135, 635, 730, 113, 208, 631,
   733, 116, 222, 609, 715, 74, 224, 612, 711, 77, 238, 959, 316, 406, 789,
   952, 306, 403, 793, 902, 303, 396, 805, 899, 296, 386, 809, 895, 470,
   469, 892, 888, 467, 473, 882, 838, 460, 485, 879, 835, 450, 489, 872,
   533, 572, 191, 150, 537, 562, 184, 147, 549, 559, 134, 140, 553, 552,
   131, 130, 636, 726, 127, 213, 626, 723, 120, 217, 623, 716, 70, 229, 616,
   706, 67, 233, 960, 321, 362, 1003, 974, 324, 365, 999, 977, 378, 368,
   987, 980, 381, 382, 983, 810, 385, 299, 896, 813, 388, 295, 910, 816,
   442, 283, 913, 830, 445, 279, 916, 747, 577, 192, 106, 743, 580, 206,
   109, 731, 634, 209, 112, 727, 637, 212, 126, 640, 641, 42, 43, 654, 644,
   45, 39, 657, 698, 48, 27, 660, 701, 62, 23, 965, 335, 358, 1004, 969,
   328, 355, 994, 991, 374, 373, 988, 984, 371, 377, 978, 806, 399, 300,
   901, 803, 392, 290, 905, 821, 438, 284, 927, 825, 435, 274, 920, 748,
   591, 197, 102, 738, 584, 201, 99, 732, 630, 223, 117, 722, 627, 216, 121,
   645, 655, 38, 44, 649, 648, 35, 34, 671, 694, 53, 28, 664, 691, 57, 18,
   1019, 336, 346, 1009, 1015, 350, 349, 1012, 993, 352, 331, 970, 996, 366,
   327, 973, 794, 400, 305, 955, 797, 414, 308, 951, 779, 416, 266, 929,
   775, 430, 269, 932, 753, 592, 251, 90, 756, 606, 247, 93, 714, 608, 225,
   75, 717, 622, 228, 71, 699, 656, 26, 49, 695, 670, 29, 52, 673, 672, 11,
   10, 676, 686, 7, 13, 1020, 341, 342, 1023, 1010, 345, 339, 1016, 1007,
   357, 332, 966, 1000, 361, 322, 963, 790, 405, 319, 956, 787, 409, 312,
   946, 780, 421, 262, 943, 770, 425, 259, 936, 767, 597, 252, 86, 760, 601,
   242, 83, 710, 613, 239, 76, 707, 617, 232, 66, 700, 661, 22, 63, 690,
   665, 19, 56, 687, 677, 12, 6, 680, 681, 2, 3]

/-- Table `_S2_LOOKUP_IJ`: 10 bits of curve position + orientation to IJ +
orientation.  Stored as an explicit 1024-entry literal; certified against
`s2_init_lookups` by `s2_init_lookups_eval` below. -/
def S2_LOOKUP_IJ : List ℕ :=
  [0, 1, 1022, 1023, 65, 4, 959, 1018, 69, 68, 955, 954, 6, 67, 1016, 957,
   9, 128, 1015, 894, 12, 193, 1010, 831, 76, 197, 946, 827, 75, 134, 949,
   888, 137, 136, 887, 886, 140, 201, 882, 823, 204, 205, 818, 819, 203,
   142, 821, 880, 198, 79, 824, 945, 135, 74, 889, 948, 131, 10, 893, 1012,
   192, 13, 830, 1011, 257, 16, 767, 1006, 260, 81, 762, 943, 324, 85, 698,
   939, 323, 22, 701, 1000, 384, 25, 638, 999, 449, 28, 575, 994, 453, 92,
   571, 930, 390, 91, 632, 933, 392, 153, 630, 871, 457, 156, 567, 866, 461,
   220, 563, 802, 398, 219, 624, 805, 335, 214, 689, 808, 330, 151, 692,
   873, 266, 147, 756, 877, 269, 208, 755, 814, 273, 272, 751, 750, 276,
   337, 746, 687, 340, 341, 682, 683, 339, 278, 685, 744, 400, 281, 622,
   743, 465, 284, 559, 738, 469, 348, 555, 674, 406, 347, 616, 677, 408,
   409, 614, 615, 473, 412, 551, 610, 477, 476, 547, 546, 414, 475, 608,
   549, 351, 470, 673, 552, 346, 407, 676, 617, 282, 403, 740, 621, 285,
   464, 739, 558, 222, 463, 800, 561, 159, 458, 865, 564, 155, 394, 869,
   628, 216, 397, 806, 627, 215, 334, 809, 688, 210, 271, 812, 753, 146,
   267, 876, 757, 149, 328, 875, 694, 87, 326, 937, 696, 82, 263, 940, 761,
   18, 259, 1004, 765, 21, 320, 1003, 702, 24, 385, 998, 639, 89, 388, 935,
   634, 93, 452, 931, 570, 30, 451, 992, 573, 33, 512, 991, 510, 36, 577,
   986, 447, 100, 581, 922, 443, 99, 518, 925, 504, 160, 521, 862, 503, 225,
   524, 799, 498, 229, 588, 795, 434, 166, 587, 856, 437, 168, 649, 854,
   375, 233, 652, 791, 370, 237, 716, 787, 306, 174, 715, 848, 309, 111,
   710, 913, 312, 106, 647, 916, 377, 42, 643, 980, 381, 45, 704, 979, 318,
   48, 769, 974, 255, 113, 772, 911, 250, 117, 836, 907, 186, 54, 835, 968,
   189, 57, 896, 967, 126, 60, 961, 962, 63, 124, 965, 898, 59, 123, 902,
   901, 120, 185, 904, 839, 118, 188, 969, 834, 55, 252, 973, 770, 51, 251,
   910, 773, 112, 246, 847, 776, 177, 183, 842, 841, 180, 179, 778, 845,
   244, 240, 781, 782, 243, 304, 785, 718, 239, 369, 788, 655, 234, 373,
   852, 651, 170, 310, 851, 712, 173, 313, 912, 711, 110, 316, 977, 706, 47,
   380, 981, 642, 43, 379, 918, 645, 104, 441, 920, 583, 102, 444, 985, 578,
   39, 508, 989, 514, 35, 507, 926, 517, 96, 502, 863, 520, 161, 439, 858,
   585, 164, 435, 794, 589, 228, 496, 797, 526, 227, 495, 734, 529, 288,
   490, 671, 532, 353, 426, 667, 596, 357, 429, 728, 595, 294, 366, 727,
   656, 297, 303, 722, 721, 300, 299, 658, 725, 364, 360, 661, 662, 363,
   358, 599, 664, 425, 295, 594, 729, 428, 291, 530, 733, 492, 352, 533,
   670, 491, 417, 536, 607, 486, 420, 601, 602, 423, 484, 605, 538, 419,
   483, 542, 541, 480, 545, 544, 479, 478, 548, 609, 474, 415, 612, 613,
   410, 411, 611, 550, 413, 472, 672, 553, 350, 471, 737, 556, 287, 466,
   741, 620, 283, 402, 678, 619, 344, 405, 680, 681, 342, 343, 745, 684,
   279, 338, 749, 748, 275, 274, 686, 747, 336, 277, 623, 742, 401, 280,
   618, 679, 404, 345, 554, 675, 468, 349, 557, 736, 467, 286, 560, 801,
   462, 223, 625, 804, 399, 218, 629, 868, 395, 154, 566, 867, 456, 157,
   569, 928, 455, 94, 572, 993, 450, 31, 636, 997, 386, 27, 635, 934, 389,
   88, 697, 936, 327, 86, 700, 1001, 322, 23, 764, 1005, 258, 19, 763, 942,
   261, 80, 758, 879, 264, 145, 695, 874, 329, 148, 691, 810, 333, 212, 752,
   813, 270, 211, 816, 817, 206, 207, 881, 820, 143, 202, 885, 884, 139,
   138, 822, 883, 200, 141, 825, 944, 199, 78, 828, 1009, 194, 15, 892,
   1013, 130, 11, 891, 950, 133, 72, 953, 952, 71, 70, 956, 1017, 66, 7,
   1020, 1021, 2, 3, 1019, 958, 5, 64, 1014, 895, 8, 129, 951, 890, 73, 132,
   947, 826, 77, 196, 1008, 829, 14, 195, 1007, 766, 17, 256, 1002, 703, 20,
   321, 938, 699, 84, 325, 941, 760, 83, 262, 878, 759, 144, 265, 815, 754,
   209, 268, 811, 690, 213, 332, 872, 693, 150, 331, 870, 631, 152, 393,
   807, 626, 217, 396, 803, 562, 221, 460, 864, 565, 158, 459, 929, 568, 95,
   454, 932, 633, 90, 391, 996, 637, 26, 387, 995, 574, 29, 448, 990, 511,
   32, 513, 927, 506, 97, 516, 923, 442, 101, 580, 984, 445, 38, 579, 983,
   382, 41, 640, 978, 319, 44, 705, 914, 315, 108, 709, 917, 376, 107, 646,
   855, 374, 169, 648, 850, 311, 172, 713, 786, 307, 236, 717, 789, 368,
   235, 654, 792, 433, 230, 591, 857, 436, 167, 586, 861, 500, 163, 522,
   798, 499, 224, 525, 735, 494, 289, 528, 730, 431, 292, 593, 666, 427,
   356, 597, 669, 488, 355, 534, 606, 487, 416, 537, 543, 482, 481, 540,
   539, 418, 485, 604, 600, 421, 422, 603, 598, 359, 424, 665, 535, 354,
   489, 668, 531, 290, 493, 732, 592, 293, 430, 731, 657, 296, 367, 726,
   660, 361, 362, 663, 724, 365, 298, 659, 723, 302, 301, 720, 719, 238,
   305, 784, 714, 175, 308, 849, 650, 171, 372, 853, 653, 232, 371, 790,
   590, 231, 432, 793, 527, 226, 497, 796, 523, 162, 501, 860, 584, 165,
   438, 859, 582, 103, 440, 921, 519, 98, 505, 924, 515, 34, 509, 988, 576,
   37, 446, 987, 641, 40, 383, 982, 644, 105, 378, 919, 708, 109, 314, 915,
   707, 46, 317, 976, 768, 49, 254, 975, 833, 52, 191, 970, 837, 116, 187,
   906, 774, 115, 248, 909, 777, 176, 247, 846, 780, 241, 242, 783, 844,
   245, 178, 779, 843, 182, 181, 840, 905, 184, 119, 838, 908, 249, 114,
   775, 972, 253, 50, 771, 971, 190, 53, 832, 966, 127, 56, 897, 903, 122,
   121, 900, 899, 58, 125, 964, 960, 61, 62, 963]

/-!  ## Character classes and string helpers (strings are `List ℕ` of code
points; the library only ever meets ASCII data) -/

/-- Code point of a hexadecimal digit `0-9a-fA-F`. -/
def isHexDigitCp (c : ℕ) : Bool :=
  (48 ≤ c ∧ c ≤ 57) ∨ (97 ≤ c ∧ c ≤ 102) ∨ (65 ≤ c ∧ c ≤ 70)

/-- Value of a hexadecimal digit code point. -/
def hexVal (c : ℕ) : ℕ :=
  if c ≤ 57 then c - 48 else if c ≤ 70 then c - 55 else c - 87

/-- Lower-case hexadecimal digit character for a value `< 16`, as produced by
Python `'{:x}'` formatting. -/
def hexDigitCp (d : ℕ) : ℕ :=
  if d < 10 then 48 + d else 87 + d

/-- Code points stripped by Python `str.strip()` with no argument: the full
Unicode whitespace set (`Py_UNICODE_ISSPACE`) — ASCII `\t\n\v\f\r`, the four
separator controls `U+001C`–`U+001F`, space, `U+0085`, `U+00A0`, `U+1680`,
`U+2000`–`U+200A`, `U+2028`, `U+2029`, `U+202F`, `U+205F` and `U+3000`. -/
def isSpaceCp (c : ℕ) : Bool :=
  (9 ≤ c ∧ c ≤ 13) ∨ (28 ≤ c ∧ c ≤ 32) ∨ c = 133 ∨ c = 160 ∨ c = 5760 ∨
    (8192 ≤ c ∧ c ≤ 8202) ∨ c = 8232 ∨ c = 8233 ∨ c = 8239 ∨ c = 8287 ∨
    c = 12288

/-- Whitespace accepted around numeric literals by Python `int()`: the
`str.strip()` set minus the four separator controls `U+001C`–`U+001F`
(`int('\x1c1', 16)` raises while `'\x1c1'.strip()` strips). -/
def isIntSpaceCp (c : ℕ) : Bool :=
  isSpaceCp c ∧ ¬ (28 ≤ c ∧ c ≤ 31)

/-- Python `str.lower` on one code point of the Basic Latin block: the ASCII
case map `A`–`Z` ↦ `a`–`z` (exact for code points below 128; non-ASCII cased
letters, which start at `U+00C0`, are outside this model and the theorems
about canonicalisation quantify over ASCII strings only). -/
def lowerCp (c : ℕ) : ℕ :=
  if 65 ≤ c ∧ c ≤ 90 then c + 32 else c

/-- Drop the longest run of characters satisfying `p` from the end of the
string (shared shape of Python `rstrip`). -/
def rdropCp (p : ℕ → Bool) (l : List ℕ) : List ℕ :=
  (l.reverse.dropWhile p).reverse

/-- Python `s.rstrip('0')`: drop trailing `'0'` (code 48) characters. -/
def rstripZeros (l : List ℕ) : List ℕ :=
  rdropCp (fun c => c = 48) l

/-- Python `s.strip()`: drop leading and trailing whitespace. -/
def pyStrip (l : List ℕ) : List ℕ :=
  rdropCp isSpaceCp (l.dropWhile isSpaceCp)

/-- The whitespace stripping `int()` performs around a numeric literal. -/
def pyIntStrip (l : List ℕ) : List ℕ :=
  rdropCp isIntSpaceCp (l.dropWhile isIntSpaceCp)

/-- The `n` least significant base-16 digits of `c`, least significant first,
as lower-case hex code points (zero padded). -/
def hexRev (c : ℕ) : ℕ → List ℕ
  | 0 => []
  | n + 1 => hexDigitCp (c % 16) :: hexRev (c / 16) n

/-- Python `'{:016x}'.format c`: 16 lower-case hex digits, most significant
first. -/
def format16 (c : ℕ) : List ℕ := (hexRev c 16).reverse

/-!  ## Python `int(s, 16)`

`token_to_cell_id` parses via the built-in `int(token, 16)`, whose grammar is
wider than plain hex digits: optional surrounding whitespace, an optional
sign, an optional `0x`/`0X` prefix (optionally followed by one underscore),
and single underscores between digits.  A failed parse raises `ValueError`
(modelled as `none`). -/

/-- Digit run with single underscores strictly between digits. -/
def goHexDigits : List ℕ → ℕ → Option ℕ
  | [], acc => some acc
  | c :: rest, acc =>
    if isHexDigitCp c then goHexDigits rest (16 * acc + hexVal c)
    else if c = 95 then
      match rest with
      | d :: rest' =>
        if isHexDigitCp d then goHexDigits rest' (16 * acc + hexVal d) else none
      | [] => none
    else none

/-- A digit run must begin with a digit (no leading underscore). -/
def parseHexRun (l : List ℕ) : Option ℕ :=
  match l with
  | c :: _ => if isHexDigitCp c then goHexDigits l 0 else none
  | [] => none

/-- Number part: optional `0x`/`0X` prefix (base-16 literals may carry it),
optionally followed by one underscore, then the digit run. -/
def pyIntHexCore (l : List ℕ) : Option ℕ :=
  match l with
  | c0 :: c1 :: rest =>
    if c0 = 48 ∧ (c1 = 120 ∨ c1 = 88) then
      match rest with
      | c2 :: rest' => if c2 = 95 then parseHexRun rest' else parseHexRun rest
      | [] => parseHexRun rest
    else parseHexRun l
  | _ => parseHexRun l

/-- Optional single sign before the number part; a `'-'` yields a negative
integer. -/
def pyIntHexSigned (s : List ℕ) : Option ℤ :=
  match s with
  | c :: rest =>
    if c = 43 then (pyIntHexCore rest).map (fun n => (n : ℤ))
    else if c = 45 then (pyIntHexCore rest).map (fun n => -(n : ℤ))
    else (pyIntHexCore (c :: rest)).map (fun n => (n : ℤ))
  | [] => (pyIntHexCore []).map (fun n => (n : ℤ))

/-- Python `int(s, 16)`: strip whitespace, then sign and number part. -/
def pyIntHex (l : List ℕ) : Option ℤ :=
  pyIntHexSigned (pyIntStrip l)

/-- Base-16 value of a string of hex-digit code points (specification-side:
most significant digit first). -/
def hexListVal (l : List ℕ) : ℕ :=
  l.foldl (fun acc ch => 16 * acc + hexVal ch) 0

/-!  ## Cell ID ↔ token translation -/

/-- Source `cell_id_to_token`: 16-digit lower-case hex with trailing zeros stripped;
the zero cell ID becomes `'X'` (code 88). -/
def cell_id_to_token (cell_id : ℕ) : List ℕ :=
  if cell_id = 0 then [88]
  else rstripZeros (format16 cell_id)

/-- Source `token_to_cell_id`: length check, `'x'`/`'X'` sentinel, right-pad with
`'0'` to 16 characters, then Python `int(token, 16)` (whose failure is a
`ValueError`, not an `InvalidToken`). -/
def token_to_cell_id (token : List ℕ) : Except S2Error ℤ :=
  if token.length > 16 then .error .invalidToken
  else if token = [120] ∨ token = [88] then .ok 0
  else
    match pyIntHex (token ++ List.replicate (16 - token.length) 48) with
    | some v => .ok v
    | none => .error .valueError

/-!  ## Validation -/

/-- Source `cell_id_is_valid`: nonzero, face bits at most 5, and the lowest set bit
(`cell_id & (~cell_id + 1)`, embedded as `cell_id &&& (2^64 - cell_id)`)
within the even-position mask `0x1555555555555555`. -/
def cell_id_is_valid (cell_id : ℕ) : Bool :=
  if cell_id = 0 then false
  else if cell_id >>> S2_POS_BITS > 5 then false
  else if (cell_id &&& (2 ^ 64 - cell_id)) &&& 0x1555555555555555 = 0 then false
  else true

/-- The character class of the *source's* regex `[0-9a-fA-f]`: digits plus the
code-point range `'A'`(65)–`'f'`(102).  (The upper bound of the second range
is the lower-case `f`, so `G`–`Z`, `[ \ ] ^ _` and backtick are accepted.) -/
def inSourceRegexClass (c : ℕ) : Bool :=
  (48 ≤ c ∧ c ≤ 57) ∨ (65 ≤ c ∧ c ≤ 102)

/-- Holds when `re.match(r'^[0-9a-fA-f]{1,16}$', token)` succeeds: 1–16 class
characters; Python's `$` also matches just before one final newline. -/
def matchesSourceRegex (token : List ℕ) : Bool :=
  (1 ≤ token.length ∧ token.length ≤ 16 ∧ ∀ c ∈ token, inSourceRegexClass c) ∨
    (token.getLast? = some 10 ∧ 1 ≤ token.dropLast.length ∧
      token.dropLast.length ≤ 16 ∧ ∀ c ∈ token.dropLast, inSourceRegexClass c)

/-- Source `token_is_valid`: regex check, then validity of the decoded cell ID.  The
decode step can itself raise (`ValueError` from `int`), which propagates; the
regex excludes sign characters so a successful parse is nonnegative and the
`ℤ → ℕ` coercion below is lossless. -/
def token_is_valid (token : List ℕ) : Except S2Error Bool :=
  if ¬ matchesSourceRegex token then .ok false
  else
    match token_to_cell_id token with
    | .error e => .error e
    | .ok v => .ok (cell_id_is_valid v.toNat)

/-!  ## Level extraction and parent -/

/-- Source `cell_id_to_level`: `InvalidCellID` on invalid input, else
`30 - (lsb_pos >> 1)` with `lsb_pos` the count of trailing zero bits. -/
def cell_id_to_level (cell_id : ℕ) : Except S2Error ℤ :=
  if ¬ cell_id_is_valid cell_id then .error .invalidCellID
  else .ok ((S2_MAX_LEVEL : ℤ) - ((ctz cell_id >>> 1 : ℕ) : ℤ))

/-- Truncation to a level: `(cell_id & -m) | m` with
`m = 1 << (2*(30 - level))`; the `& -m` is embedded as
`&&& (2^64 - m)` (valid since every validated cell ID is `< 2^64`). -/
def truncate_to_level (cell_id : ℕ) (level : ℕ) : ℕ :=
  let m := 1 <<< (2 * (S2_MAX_LEVEL - level))
  (cell_id &&& (2 ^ 64 - m)) ||| m

/-- Source `cell_id_to_parent_cell_id`: validate, default the level to
`current_level - 1`, check the range, and truncate. -/
def cell_id_to_parent_cell_id (cell_id : ℕ) (level : Option ℤ) :
    Except S2Error ℕ :=
  if ¬ cell_id_is_valid cell_id then .error .invalidCellID
  else
    let current_level : ℤ := (S2_MAX_LEVEL : ℤ) - ((ctz cell_id >>> 1 : ℕ) : ℤ)
    if level = none ∧ current_level = 0 then .error .valueError
    else
      let lvl := level.getD (current_level - 1)
      if lvl < 0 ∨ lvl > 30 then .error .valueError
      else if lvl > current_level then .error .valueError
      else if lvl = current_level then .ok cell_id
      else .ok (truncate_to_level cell_id lvl.toNat)

/-!  ## Token canonicalisation -/

/-- Source `token_to_canonical_token`: lower-case, strip surrounding whitespace,
strip trailing `'0'`, and map `''`/`'x'` to `'X'`. -/
def token_to_canonical_token (token : List ℕ) : List ℕ :=
  let t1 := token.map lowerCp
  let t2 := pyStrip t1
  let t3 := rstripZeros t2
  if t3 = [] ∨ t3 = [120] then [88] else t3

/-!  ## Encode: face + IJ → cell ID (integer core of `lat_lon_to_cell_id`) -/

/-- The integer tail of `lat_lon_to_cell_id` (from `bits = face & SWAP`
onward): eight 4-bit lookup steps (only `required_steps` of them), the final
left shift, and the truncation that installs the trailing 1 bit.
`required_steps = ceil((level + 2) / 4)` for positive level, here written
with natural division as `(level + 5) / 4`. -/
def encodeFaceIJ (face i j level : ℕ) : ℕ :=
  let required_steps := if level > 0 then (level + 5) / 4 else 0
  let st := List.foldl (fun (st : ℕ × ℕ) (k : ℕ) =>
      let bits := st.1 + (((i >>> (k * 4)) &&& 15) <<< 6)
        + (((j >>> (k * 4)) &&& 15) <<< 2)
      let bits := S2_LOOKUP_POS.getD bits 0
      (bits &&& 3, st.2 ||| ((bits >>> 2) <<< (k * 8))))
    (face &&& 1, face <<< (S2_POS_BITS - 1)) ((List.range 8).reverse.take required_steps)
  truncate_to_level (st.2 <<< 1) level

/-!  ## Decode: cell ID → face + IJ (from `cell_id_to_lat_lon`) -/

/-- The integer head of `cell_id_to_lat_lon`: extract the face and run the
eight reverse-lookup steps accumulating I and J (the first step pulls only
4 = 2·2 bits because the face occupies the top 3). -/
def decodeFaceIJ (cell_id : ℕ) : ℕ × ℕ × ℕ :=
  let face := cell_id >>> S2_POS_BITS
  let st := List.foldl (fun (st : ℕ × ℕ × ℕ) (k : ℕ) =>
      let n_bits := if k = 7 then S2_MAX_LEVEL - 7 * 4 else 4
      let extract_mask := (1 <<< (2 * n_bits)) - 1
      let bits := st.1 + (((cell_id >>> (k * 8 + 1)) &&& extract_mask) <<< 2)
      let bits := S2_LOOKUP_IJ.getD bits 0
      let i := st.2.1 + ((bits >>> 6) <<< (k * 4))
      let j := st.2.2 + (((bits >>> 2) &&& 15) <<< (k * 4))
      (bits &&& 3, i, j))
    (face &&& 1, 0, 0) (List.range 8).reverse
  (face, st.2)

/-- Modelled from the spec: `cell_id_to_neighbor_cell_ids` is declared in the
spec (§4.5, §6, §8 scenario 6) but its implementation is not under `src/`.
Validate the id; recover `(face, i, j)` and the level; the four edge
neighbors at the same level are the cells containing `(i, j − size)`,
`(i + size, j)`, `(i, j + size)` and `(i − size, j)` — the down, right, up,
left order `(J−1, I+1, J+1, I−1)` of the reference C++ `GetEdgeNeighbors`,
which is the order pinned by the spec's concrete scenario (§8 scenario 6)
and by the repository's test `src/tests/test_s2cell.py:341-351`; the §4.5
prose instead *states* the order `(I+1, J−1, I−1, J+1)`, contradicting both.
`size` is the IJ extent of a cell at the level.  The spec's cross-face UV
re-projection is not modelled: this model covers neighbors lying on the same
face (the claims only exercise a face-interior cell). -/
def cell_id_to_neighbor_cell_ids (cell_id : ℕ) : Except S2Error (List ℕ) :=
  if ¬ cell_id_is_valid cell_id then .error .invalidCellID
  else
    let level := S2_MAX_LEVEL - ctz cell_id / 2
    let size := 1 <<< (S2_MAX_LEVEL - level)
    let f := decodeFaceIJ cell_id
    .ok [truncate_to_level (encodeFaceIJ f.1 f.2.1 (f.2.2 - size) 30) level,
         truncate_to_level (encodeFaceIJ f.1 (f.2.1 + size) f.2.2 30) level,
         truncate_to_level (encodeFaceIJ f.1 f.2.1 (f.2.2 + size) 30) level,
         truncate_to_level (encodeFaceIJ f.1 (f.2.1 - size) f.2.2 30) level]

/-!  ## The real-valued front end of `lat_lon_to_cell_id`

The Python code works on IEEE-754 doubles; it is modelled here over the exact
real numbers.  The claims evaluate it only at `lat = lon = 0`, where every
floating-point operation performed by the code is exact (`radians(0) = 0.0`,
`sin(0.0) = 0.0`, `cos(0.0) = 1.0`, `sqrt(1.0) = 1.0`, `0.5·2³⁰` integral),
so the real-number model and the double computation coincide there. -/

/-- Source `_s2_uv_to_st`: quadratic UV → ST projection. -/
noncomputable def s2_uv_to_st (component : ℝ) : ℝ :=
  if component ≥ 0 then 0.5 * Real.sqrt (1.0 + 3.0 * component)
  else 1.0 - 0.5 * Real.sqrt (1.0 - 3.0 * component)

/-- Source `_s2_st_to_ij`: `max(0, min(2^30 - 1, floor(2^30 * component)))`. -/
noncomputable def s2_st_to_ij (component : ℝ) : ℕ :=
  (max 0 (min (2 ^ 30 - 1) ⌊(2 ^ 30 : ℝ) * component⌋)).toNat

/-- Python tuple indexing `s2_point[idx]` for a 3-tuple, including the
negative indices the source uses (`-1` is the last component): the index is
reduced modulo 3. -/
def getComp (p : ℝ × ℝ × ℝ) (idx : ℤ) : ℝ :=
  if idx.emod 3 = 0 then p.1 else if idx.emod 3 = 1 then p.2.1 else p.2.2

/-- Python `max(enumerate(s2_point), key=abs)[0]`: index of the largest absolute
component, first-found on ties (Python `max` keeps the earlier element
unless a strictly larger key appears). -/
noncomputable def xyzToFace (p : ℝ × ℝ × ℝ) : ℕ :=
  if |p.2.1| > |p.1| then (if |p.2.2| > |p.2.1| then 2 else 1)
  else (if |p.2.2| > |p.1| then 2 else 0)

/-- The S2Point (unit non-geodetic ECEF vector) of a lat/lon pair in
degrees: `(cos·cos, cos·sin, sin)` with radians inside. -/
noncomputable def s2_point_from_lat_lon (lat lon : ℝ) : ℝ × ℝ × ℝ :=
  (Real.cos (lat * Real.pi / 180) * Real.cos (lon * Real.pi / 180),
   Real.cos (lat * Real.pi / 180) * Real.sin (lon * Real.pi / 180),
   Real.sin (lat * Real.pi / 180))

/-- Cube face of an S2Point: index of the largest absolute component, plus
3 when that component is negative. -/
noncomputable def face_of_s2_point (p : ℝ × ℝ × ℝ) : ℕ :=
  if getComp p (xyzToFace p : ℤ) < 0 then xyzToFace p + 3 else xyzToFace p

/-- Face UV coordinates of an S2Point, using the source's index arithmetic
`1 - ((face + 1) >> 1)` / `2 - (face >> 1)` (negative values index from the
end, handled by `getComp`), the divisor index `face % 3` reduced inside
`getComp`, and the sign fixups for faces `{1,2,5}` (U) and `{2,4,5}` (V). -/
noncomputable def uv_of_face (p : ℝ × ℝ × ℝ) (face : ℕ) : ℝ × ℝ :=
  let uv0 : ℝ × ℝ :=
    (getComp p (1 - ((face + 1 : ℤ) / 2)) / getComp p (face : ℤ),
     getComp p (2 - ((face : ℤ) / 2)) / getComp p (face : ℤ))
  let uv1 : ℝ × ℝ :=
    if face = 1 ∨ face = 2 ∨ face = 5 then (-uv0.1, uv0.2) else uv0
  if face = 2 ∨ face = 4 ∨ face = 5 then (uv1.1, -uv1.2) else uv1

/-- Source `lat_lon_to_cell_id`: level range check, lat/lon → XYZ → face + UV → ST
→ IJ, then the integer encode core. -/
noncomputable def lat_lon_to_cell_id (lat lon : ℝ) (level : ℤ) :
    Except S2Error ℕ :=
  if level < 0 ∨ level > 30 then .error .valueError
  else
    let p := s2_point_from_lat_lon lat lon
    let face := face_of_s2_point p
    let uv := uv_of_face p face
    .ok (encodeFaceIJ face (s2_st_to_ij (s2_uv_to_st uv.1))
      (s2_st_to_ij (s2_uv_to_st uv.2)) level.toNat)

/-- Source `lat_lon_to_token`: encode then convert to a token. -/
noncomputable def lat_lon_to_token (lat lon : ℝ) (level : ℤ) :
    Except S2Error (List ℕ) :=
  (lat_lon_to_cell_id lat lon level).map cell_id_to_token

/-!  # Theorems -/

/-- Certification of the `_S2_LOOKUP_IJ` literal: the entry at index
`pos << 2 | base_orientation` holds `ij << 2 | orientation` as computed by
the source's inner walk — exactly the write
`_S2_LOOKUP_IJ[pos << 2 | base_orientation] = ij << 2 | orientation`
that `s2_init_lookups` performs for every orientation and position. -/
theorem lookup_ij_entries :
    S2_LOOKUP_IJ = (List.range 1024).map (fun idx =>
      ((ijWalk (idx % 4) (idx / 4)).1 <<< 2) |||
        (ijWalk (idx % 4) (idx / 4)).2) := by
  decide

/-- Certification of the `_S2_LOOKUP_POS` literal: the entry at index
`ij << 2 | base_orientation` holds `pos << 2 | orientation`, where `posWalk`
recovers the curve position from the IJ bits. -/
theorem lookup_pos_entries :
    S2_LOOKUP_POS = (List.range 1024).map (fun idx =>
      ((posWalk (idx % 4) (idx / 4)).1 <<< 2) |||
        (posWalk (idx % 4) (idx / 4)).2) := by
  decide

/-- Lemma: `posWalk` inverts the source's `ijWalk` on every (orientation, position)
pair.  Together with the two entry lemmas above this certifies that the two
literal tables carry exactly the forward and reverse writes performed by
`s2_init_lookups`: the write at `ij << 2 | bo` of the POS table is
`pos << 2 | or` if and only if `ijWalk bo pos = (ij, or)`. -/
theorem lookup_tables_inverse :
    ∀ bo < 4, ∀ pos < 256,
      posWalk bo (ijWalk bo pos).1 = (pos, (ijWalk bo pos).2) := by
  decide

/-- C5 (corrected): on the face-interior cell `0x466d319000000000` (level
12) the neighbor function returns exactly the claim's example list
`[0x466d31b…, 0x466d317…, 0x466d323…, 0x466d31f…]` — which is the down,
right, up, left order `(J−1, I+1, J+1, I−1)` of the reference C++
`GetEdgeNeighbors` — and each returned id is a valid cell ID at the same
level 12.  The claim's *stated* order `(I+1, J−1, I−1, J+1)` mislabels this
list; see the counterexample. -/
theorem c5_neighbors_amended :
    cell_id_to_neighbor_cell_ids 0x466d319000000000 =
      .ok [0x466d31b000000000, 0x466d317000000000, 0x466d323000000000,
           0x466d31f000000000] ∧
    cell_id_to_level 0x466d319000000000 = .ok 12 ∧
    (∀ n ∈ [0x466d31b000000000, 0x466d317000000000, 0x466d323000000000,
            0x466d31f000000000],
      cell_id_is_valid n = true ∧ cell_id_to_level n = .ok 12) := by
  decide

/-- C5 counterexample (to the claim's order conjunct): the cell decodes to
face 2, `i = 228982783`, `j = 468582399`; its `I+1` neighbor — the level-12
cell at `(i + 2¹⁸, j)`, `2¹⁸` being the level-12 cell extent — is
`0x466d317000000000`, so a result in the claim's stated order
`(I+1, J−1, I−1, J+1)` would be `[0x466d317…, 0x466d31b…, 0x466d31f…,
0x466d323…]`; the function's result is not that list (it starts with the
`J−1` neighbor `0x466d31b…`). -/
theorem c5_neighbors_counterexample :
    decodeFaceIJ 0x466d319000000000 = (2, 228982783, 468582399) ∧
    truncate_to_level
        (encodeFaceIJ 2 (228982783 + 2 ^ 18) 468582399 30) 12 =
      0x466d317000000000 ∧
    cell_id_to_neighbor_cell_ids 0x466d319000000000 ≠
      .ok [0x466d317000000000, 0x466d31b000000000, 0x466d31f000000000,
           0x466d323000000000] := by
  decide

/-- C8 counterexample: `token_to_cell_id "g"` (code point 103, not a hex
digit) is rejected with the `ValueError` of Python's `int(…, 16)`, not with
`InvalidToken` as the claim states. -/
theorem c8_counterexample :
    token_to_cell_id [103] ≠ .error S2Error.invalidToken ∧
    token_to_cell_id [103] = .error S2Error.valueError := by
  decide

/-- C9 (code bug): the source's regex `[0-9a-fA-f]` (note the lower-case `f`
closing the second range) accepts `"G"`, after which `int("G000…", 16)`
raises `ValueError`; so `token_is_valid "G"` raises instead of returning the
boolean the claim (and the function's own docstring) promises. -/
theorem c9_token_is_valid_bug :
    matchesSourceRegex [71] = true ∧
    token_is_valid [71] = .error S2Error.valueError := by
  decide

/-- C10 counterexample: canonicalisation is not idempotent: on `"a 0"` it
yields `"a "` (stripping the `'0'` exposes a trailing space), and a second
application yields `"a"`. -/
theorem c10_counterexample :
    token_to_canonical_token (token_to_canonical_token [97, 32, 48]) ≠
      token_to_canonical_token [97, 32, 48] := by
  decide

/-!  ## Arithmetic helper lemmas: trailing zeros and the bit tricks -/

/-- Lemma: `ctzFuel` ignores the fuel as soon as the fuel bounds the input. -/
theorem ctzFuel_congr : ∀ {f f' n : ℕ}, n < 2 ^ f → n < 2 ^ f' →
    ctzFuel f n = ctzFuel f' n := by
  intro f
  induction f with
  | zero =>
    intro f' n h _
    interval_cases n
    cases f' <;> simp [ctzFuel]
  | succ f ih =>
    intro f' n h h'
    cases f' with
    | zero =>
      interval_cases n
      simp [ctzFuel]
    | succ f' =>
      simp only [ctzFuel]
      by_cases hc : n % 2 = 1 ∨ n = 0
      · simp [hc]
      · simp only [if_neg hc]
        have h2 : n / 2 < 2 ^ f := by
          rw [Nat.div_lt_iff_lt_mul (by norm_num)]
          calc n < 2 ^ (f + 1) := h
          _ = 2 ^ f * 2 := by rw [pow_succ]
        have h2' : n / 2 < 2 ^ f' := by
          rw [Nat.div_lt_iff_lt_mul (by norm_num)]
          calc n < 2 ^ (f' + 1) := h'
          _ = 2 ^ f' * 2 := by rw [pow_succ]
        rw [ih h2 h2']

/-- Lemma: `ctz` computed with any sufficient fuel. -/
theorem ctz_eq_ctzFuel {f n : ℕ} (h : n < 2 ^ f) : ctz n = ctzFuel f n :=
  ctzFuel_congr (Nat.lt_two_pow n) h

/-- An odd number has no trailing zero bits. -/
theorem ctz_odd {n : ℕ} (h : n % 2 = 1) : ctz n = 0 := by
  cases n with
  | zero => simp at h
  | succ m => simp [ctz, ctzFuel, h]

/-- One division step of the trailing-zeros loop. -/
theorem ctz_even {n : ℕ} (h0 : n ≠ 0) (h : n % 2 = 0) :
    ctz n = ctz (n / 2) + 1 := by
  cases n with
  | zero => exact absurd rfl h0
  | succ m =>
    have hm : 1 ≤ m := by omega
    show ctzFuel (m + 1) (m + 1) = ctz ((m + 1) / 2) + 1
    simp only [ctzFuel]
    rw [if_neg (by omega)]
    have hb1 : (m + 1) / 2 < 2 ^ m := by
      have := Nat.lt_two_pow m
      omega
    rw [← ctz_eq_ctzFuel hb1]

/-- Trailing zeros of `2^k · odd`. -/
theorem ctz_two_pow_mul_odd (k q : ℕ) : ctz (2 ^ k * (2 * q + 1)) = k := by
  induction k with
  | zero =>
    rw [pow_zero, one_mul]
    exact ctz_odd (by omega)
  | succ k ih =>
    have h2 : 2 ^ (k + 1) * (2 * q + 1) = 2 * (2 ^ k * (2 * q + 1)) := by ring
    rw [h2, ctz_even (by positivity) (by omega), Nat.mul_div_cancel_left _ (by norm_num), ih]

/-- Every positive number is `2^(ctz n) · odd`. -/
theorem ctz_decomp (n : ℕ) (h : 0 < n) : ∃ q, n = 2 ^ ctz n * (2 * q + 1) := by
  induction n using Nat.strong_induction_on with
  | _ n ih =>
    by_cases hodd : n % 2 = 1
    · exact ⟨n / 2, by rw [ctz_odd hodd]; omega⟩
    · have heven : n % 2 = 0 := by omega
      have hn2 : 0 < n / 2 := by omega
      obtain ⟨q, hq⟩ := ih (n / 2) (by omega) hn2
      refine ⟨q, ?_⟩
      have hn2eq : n = 2 * (n / 2) := by omega
      rw [ctz_even (by omega) heven, pow_succ, mul_comm (2 ^ ctz (n / 2)) 2,
        mul_assoc, ← hq, ← hn2eq]

/-- Lemma: `2^(ctz n)` divides `n`, hence is at most `n`. -/
theorem two_pow_ctz_le {n : ℕ} (h : 0 < n) : 2 ^ ctz n ≤ n := by
  obtain ⟨q, hq⟩ := ctz_decomp n h
  calc 2 ^ ctz n ≤ 2 ^ ctz n * (2 * q + 1) := Nat.le_mul_of_pos_right _ (by omega)
  _ = n := hq.symm

/-- Trailing-zero count of a number below `2^64` is below 64. -/
theorem ctz_lt_64 {n : ℕ} (h0 : n ≠ 0) (h : n < 2 ^ 64) : ctz n < 64 := by
  have h1 : 2 ^ ctz n < 2 ^ 64 := lt_of_le_of_lt (two_pow_ctz_le (by omega)) h
  exact (Nat.pow_lt_pow_iff_right (by norm_num)).mp h1

/-- Bits of a quotient by a power of two. -/
theorem testBit_div_pow (x k i : ℕ) : (x / 2 ^ k).testBit i = x.testBit (k + i) := by
  induction k generalizing x with
  | zero => simp
  | succ k ih =>
    have h : x / 2 ^ (k + 1) = x / 2 / 2 ^ k := by
      rw [Nat.div_div_eq_div_mul, pow_succ, mul_comm (2 ^ k) 2]
    rw [h, ih, show k + 1 + i = (k + i) + 1 from by omega, Nat.testBit_succ]

/-- Bits of `2^k · a` (no low part). -/
theorem testBit_two_pow_mul (a k i : ℕ) :
    (2 ^ k * a).testBit i = if i < k then false else a.testBit (i - k) := by
  have h := Nat.testBit_mul_pow_two_add a (Nat.two_pow_pos k) i
  simpa using h

/-- Python's `x & (~x + 1)` (here `x &&& (2^64 - x)`) extracts the lowest
set bit `2^(ctz x)`. -/
theorem land_lowbit {x : ℕ} (h0 : 0 < x) (h : x < 2 ^ 64) :
    x &&& (2 ^ 64 - x) = 2 ^ ctz x := by
  obtain ⟨q, hq⟩ := ctz_decomp x h0
  set t := ctz x with ht
  have ht64 : t < 64 := ctz_lt_64 (by omega) h
  apply Nat.eq_of_testBit_eq
  intro i
  rw [Nat.testBit_land]
  have hx1 : x - 1 + 1 = x := Nat.succ_pred_eq_of_pos h0
  have hsub : (2 ^ 64 - x).testBit i = (decide (i < 64) && !(x - 1).testBit i) := by
    conv_lhs => rw [← hx1]
    exact Nat.testBit_two_pow_sub_succ (by omega) i
  have hxbit : x.testBit i = if i < t then false else (2 * q + 1).testBit (i - t) := by
    conv_lhs => rw [hq]
    exact testBit_two_pow_mul _ _ _
  have hx1e : x - 1 = 2 ^ t * (2 * q) + (2 ^ t - 1) := by
    have hp := Nat.two_pow_pos t
    rw [hq, Nat.mul_add, mul_one]
    omega
  have hx1bit : (x - 1).testBit i =
      if i < t then (2 ^ t - 1).testBit i else (2 * q).testBit (i - t) := by
    conv_lhs => rw [hx1e]
    have hp := Nat.two_pow_pos t
    exact Nat.testBit_mul_pow_two_add (2 * q) (by omega) i
  rw [hsub, hxbit, hx1bit, Nat.testBit_two_pow]
  rcases lt_trichotomy i t with hlt | heq | hgt
  · rw [if_pos hlt]
    simp [show ¬ t = i from by omega]
  · subst heq
    rw [if_neg (lt_irrefl t), if_neg (lt_irrefl t), Nat.sub_self,
      Nat.testBit_zero, Nat.testBit_zero]
    have e1 : (2 * q + 1) % 2 = 1 := by omega
    have e2 : (2 * q) % 2 = 0 := by omega
    simp [e1, e2, ht64]
  · have hne : ¬ t = i := by omega
    rw [if_neg (by omega), if_neg (by omega)]
    by_cases h64 : i < 64
    · obtain ⟨s, hs⟩ : ∃ s, i - t = s + 1 := ⟨i - t - 1, by omega⟩
      rw [hs, Nat.testBit_succ, Nat.testBit_succ]
      have hq2 : 2 * q / 2 = q := by omega
      have hq2' : (2 * q + 1) / 2 = q := by omega
      simp [hq2, hq2', hne, h64]
    · simp [hne, h64]

/-- Python's `x & -(2^k)` (here `x &&& (2^64 - 2^k)`) clears the low `k`
bits. -/
theorem land_clear_low (x k : ℕ) (h : x < 2 ^ 64) (hk : k ≤ 64) :
    x &&& (2 ^ 64 - 2 ^ k) = 2 ^ k * (x / 2 ^ k) := by
  apply Nat.eq_of_testBit_eq
  intro i
  rw [Nat.testBit_land]
  have h1 : (2 ^ 64 - 2 ^ k).testBit i = (decide (i < 64) && !(2 ^ k - 1).testBit i) := by
    have hp : 2 ^ k - 1 + 1 = 2 ^ k := Nat.succ_pred_eq_of_pos (Nat.two_pow_pos k)
    conv_lhs => rw [← hp]
    refine Nat.testBit_two_pow_sub_succ ?_ i
    have : (2 : ℕ) ^ k ≤ 2 ^ 64 := Nat.pow_le_pow_right (by norm_num) hk
    omega
  have h2 : (2 ^ k * (x / 2 ^ k)).testBit i =
      if i < k then false else (x / 2 ^ k).testBit (i - k) := testBit_two_pow_mul _ _ _
  rw [h1, h2, Nat.testBit_two_pow_sub_one]
  rcases lt_or_ge i k with hik | hik
  · simp [hik]
  · have h3 : (x / 2 ^ k).testBit (i - k) = x.testBit i := by
      rw [testBit_div_pow, show k + (i - k) = i from by omega]
    rw [if_neg (by omega), h3]
    by_cases h64 : i < 64
    · simp [h64, Nat.not_lt.mpr hik]
    · have hxi : x.testBit i = false := Nat.testBit_lt_two_pow (by
        calc x < 2 ^ 64 := h
        _ ≤ 2 ^ i := Nat.pow_le_pow_right (by norm_num) (by omega))
      simp [hxi, h64]

/-- Setting the trailing bit after clearing the low `k` bits yields
`2^k · (2·(x / 2^(k+1)) + 1)`. -/
theorem lor_low (x k : ℕ) :
    (2 ^ k * (x / 2 ^ k)) ||| 2 ^ k = 2 ^ k * (2 * (x / 2 ^ (k + 1)) + 1) := by
  apply Nat.eq_of_testBit_eq
  intro i
  rw [Nat.testBit_lor]
  have h1 : (2 ^ k * (x / 2 ^ k)).testBit i =
      if i < k then false else (x / 2 ^ k).testBit (i - k) := testBit_two_pow_mul _ _ _
  have h2 : (2 ^ k * (2 * (x / 2 ^ (k + 1)) + 1)).testBit i =
      if i < k then false else (2 * (x / 2 ^ (k + 1)) + 1).testBit (i - k) :=
    testBit_two_pow_mul _ _ _
  rw [h1, h2, Nat.testBit_two_pow]
  rcases lt_trichotomy i k with hlt | heq | hgt
  · rw [if_pos hlt, if_pos hlt]
    simp [show ¬ k = i from by omega]
  · rw [heq, if_neg (lt_irrefl k), if_neg (lt_irrefl k), Nat.sub_self,
      Nat.testBit_zero]
    have e : (2 * (x / 2 ^ (k + 1)) + 1) % 2 = 1 := by omega
    simp [e]
  · rw [if_neg (by omega), if_neg (by omega)]
    obtain ⟨s, hs⟩ : ∃ s, i - k = s + 1 := ⟨i - k - 1, by omega⟩
    rw [hs, Nat.testBit_succ, Nat.testBit_succ]
    have e1 : x / 2 ^ k / 2 = x / 2 ^ (k + 1) := by
      rw [Nat.div_div_eq_div_mul, pow_succ]
    have e2 : (2 * (x / 2 ^ (k + 1)) + 1) / 2 = x / 2 ^ (k + 1) := by omega
    simp [e1, e2, show ¬ k = i from by omega]

/-- Intersection of a single bit with the even-position mask
`0x1555555555555555`. -/
theorem mask_bit_even {t : ℕ} (h : t < 64) :
    2 ^ t &&& 0x1555555555555555 ≠ 0 ↔ t % 2 = 0 ∧ t ≤ 60 := by
  have hbit : ∀ u < 64, Nat.testBit 0x1555555555555555 u = decide (u % 2 = 0 ∧ u ≤ 60) := by
    decide
  rw [Nat.land_comm, Nat.and_two_pow, hbit t h]
  by_cases hc : t % 2 = 0 ∧ t ≤ 60
  · simp [hc, (Nat.two_pow_pos t).ne']
  · simp [hc]

/-!  ## Validity characterization -/

/-- Lemma: `cell_id_is_valid` in terms of the trailing-zero count. -/
theorem valid_iff {x : ℕ} (h : x < 2 ^ 64) :
    cell_id_is_valid x = true ↔
      x ≠ 0 ∧ x >>> 61 ≤ 5 ∧ ctz x % 2 = 0 ∧ ctz x ≤ 60 := by
  by_cases h1 : x = 0
  · subst h1
    simp [cell_id_is_valid]
  · have hpos : 0 < x := Nat.pos_of_ne_zero h1
    have hlow : x &&& (2 ^ 64 - x) = 2 ^ ctz x := land_lowbit hpos h
    have hmask := mask_bit_even (ctz_lt_64 h1 h)
    unfold cell_id_is_valid
    rw [show S2_POS_BITS = 61 from rfl]
    simp only [if_neg h1, hlow]
    by_cases h2 : x >>> 61 > 5
    · rw [if_pos h2]
      constructor
      · intro hc
        simp at hc
      · rintro ⟨_, hle, _⟩
        exact absurd hle (by omega)
    · rw [if_neg h2]
      by_cases h3 : 2 ^ ctz x &&& 0x1555555555555555 = 0
      · rw [if_pos h3]
        constructor
        · intro hc
          simp at hc
        · rintro ⟨_, _, he, hle⟩
          exact absurd h3 (hmask.mpr ⟨he, hle⟩)
      · rw [if_neg h3]
        refine ⟨fun _ => ⟨h1, by omega, (hmask.mp h3).1, (hmask.mp h3).2⟩, fun _ => rfl⟩

/-- A valid cell ID is nonzero, has face bits at most 5, and fits in 64
bits. -/
theorem valid_lt {x : ℕ} (hv : cell_id_is_valid x = true) :
    x ≠ 0 ∧ x >>> 61 ≤ 5 ∧ x < 2 ^ 64 := by
  unfold cell_id_is_valid at hv
  rw [show S2_POS_BITS = 61 from rfl] at hv
  by_cases h1 : x = 0
  · simp [h1] at hv
  · rw [if_neg h1] at hv
    by_cases h2 : x >>> 61 > 5
    · rw [if_pos h2] at hv
      simp at hv
    · refine ⟨h1, by omega, ?_⟩
      have hd : x / 2 ^ 61 ≤ 5 := by
        rw [← Nat.shiftRight_eq_div_pow]
        omega
      have h61 : (2 : ℕ) ^ 61 = 2305843009213693952 := by norm_num
      rw [h61] at hd
      omega

/-- C2: `cell_id_is_valid id` returns true iff `id` is nonzero, its top
three bits (`id >> 61`) are at most 5, and the lowest set bit
(`id & −id`) intersects the mask `0x1555555555555555` — equivalently, the
trailing-1 marker sits at an even bit position ≤ 60. -/
theorem c2_cell_id_is_valid (id : ℕ) (h : id < 2 ^ 64) :
    (cell_id_is_valid id = true ↔
      id ≠ 0 ∧ id >>> 61 ≤ 5 ∧
        (id &&& (2 ^ 64 - id)) &&& 0x1555555555555555 ≠ 0) ∧
    (cell_id_is_valid id = true ↔
      id ≠ 0 ∧ id >>> 61 ≤ 5 ∧ ctz id % 2 = 0 ∧ ctz id ≤ 60) := by
  constructor
  · unfold cell_id_is_valid
    rw [show S2_POS_BITS = 61 from rfl]
    by_cases h1 : id = 0
    · simp [h1]
    · rw [if_neg h1]
      by_cases h2 : id >>> 61 > 5
      · rw [if_pos h2]
        constructor
        · intro hc
          simp at hc
        · rintro ⟨_, hle, _⟩
          exact absurd hle (by omega)
      · rw [if_neg h2]
        by_cases h3 : (id &&& (2 ^ 64 - id)) &&& 0x1555555555555555 = 0
        · rw [if_pos h3]
          constructor
          · intro hc
            simp at hc
          · rintro ⟨_, _, hne⟩
            exact absurd h3 hne
        · rw [if_neg h3]
          exact ⟨fun _ => ⟨h1, by omega, h3⟩, fun _ => rfl⟩
  · exact valid_iff h

/-- C2 witness: the claim instantiated at the leaf cell
`0x1000000000000001`. -/
theorem c2_witness :
    cell_id_is_valid 1152921504606846977 = true ∧
    (1152921504606846977 : ℕ) &&& (2 ^ 64 - 1152921504606846977) &&&
      0x1555555555555555 ≠ 0 :=
  ⟨((c2_cell_id_is_valid 1152921504606846977 (by norm_num)).2).mpr (by decide),
   (((c2_cell_id_is_valid 1152921504606846977 (by norm_num)).1).mp
     (((c2_cell_id_is_valid 1152921504606846977 (by norm_num)).2).mpr
       (by decide))).2.2⟩

/-- C3: `cell_id_to_level` fails with `InvalidCellID` on every invalid id
(in particular on 0), and on a valid id returns `30 − (trailing zero count
/ 2)`, which lies in `[0, 30]`. -/
theorem c3_cell_id_to_level (id : ℕ) (h : id < 2 ^ 64) :
    (cell_id_is_valid id = false →
      cell_id_to_level id = .error .invalidCellID) ∧
    cell_id_to_level 0 = .error .invalidCellID ∧
    (cell_id_is_valid id = true →
      cell_id_to_level id = .ok ((30 : ℤ) - (ctz id / 2 : ℕ)) ∧
      0 ≤ (30 : ℤ) - (ctz id / 2 : ℕ) ∧
      (30 : ℤ) - (ctz id / 2 : ℕ) ≤ 30) := by
  refine ⟨?_, by decide, ?_⟩
  · intro hv
    unfold cell_id_to_level
    rw [if_pos (by simp [hv])]
  · intro hv
    have hded := (valid_iff h).mp hv
    have hsh : ctz id >>> 1 = ctz id / 2 := by
      rw [Nat.shiftRight_succ, Nat.shiftRight_zero]
    refine ⟨?_, ?_, ?_⟩
    · unfold cell_id_to_level
      rw [if_neg (by simp [hv]), hsh]
      rfl
    · have h60 : ctz id ≤ 60 := hded.2.2.2
      omega
    · omega

/-- C3 witness: the level of the valid leaf cell `0x1000000000000001` is
`30 − 0/2 = 30`, and level extraction at the invalid id 0 fails. -/
theorem c3_witness :
    cell_id_to_level 1152921504606846977 = .ok 30 ∧
    cell_id_to_level 0 = .error .invalidCellID := by
  have h := c3_cell_id_to_level 1152921504606846977 (by norm_num)
  refine ⟨?_, h.2.1⟩
  have h3 := (h.2.2 (by decide)).1
  rw [h3]
  decide

/-!  ## Truncation and parent extraction -/

/-- Closed form of the truncation `(id & -m) | m`. -/
theorem truncate_eq (x lv : ℕ) (hx : x < 2 ^ 64) (hlv : lv ≤ 30) :
    truncate_to_level x lv =
      2 ^ (2 * (30 - lv)) * (2 * (x / 2 ^ (2 * (30 - lv) + 1)) + 1) := by
  simp only [truncate_to_level, show S2_MAX_LEVEL = 30 from rfl,
    Nat.shiftLeft_eq, one_mul]
  rw [land_clear_low x _ hx (by omega), lor_low]

/-- Truncation of a valid id yields a valid id whose trailing-zero count is
exactly `2·(30 − lv)` and whose face bits are unchanged. -/
theorem truncate_props (x lv : ℕ) (hx : cell_id_is_valid x = true)
    (hlv : lv ≤ 30) :
    cell_id_is_valid (truncate_to_level x lv) = true ∧
    ctz (truncate_to_level x lv) = 2 * (30 - lv) ∧
    truncate_to_level x lv >>> 61 = x >>> 61 := by
  obtain ⟨hne, hsh, hlt⟩ := valid_lt hx
  have heq := truncate_eq x lv hlt hlv
  have hctz : ctz (truncate_to_level x lv) = 2 * (30 - lv) := by
    rw [heq]
    exact ctz_two_pow_mul_odd _ _
  have hshift : truncate_to_level x lv >>> 61 = x >>> 61 := by
    rw [heq, Nat.shiftRight_eq_div_pow, Nat.shiftRight_eq_div_pow]
    have h61 : (2 : ℕ) ^ 61 = 2 ^ (2 * (30 - lv) + 1) * 2 ^ (60 - 2 * (30 - lv)) := by
      rw [← pow_add]
      congr 1
      omega
    rw [h61, ← Nat.div_div_eq_div_mul, ← Nat.div_div_eq_div_mul]
    congr 1
    have hsplit : 2 ^ (2 * (30 - lv)) * (2 * (x / 2 ^ (2 * (30 - lv) + 1)) + 1) =
        2 ^ (2 * (30 - lv)) + 2 ^ (2 * (30 - lv) + 1) * (x / 2 ^ (2 * (30 - lv) + 1)) := by
      rw [pow_succ]
      ring
    rw [hsplit, Nat.add_mul_div_left _ _ (Nat.two_pow_pos (2 * (30 - lv) + 1)),
      Nat.div_eq_of_lt (by
        rw [pow_succ]
        have := Nat.two_pow_pos (2 * (30 - lv))
        omega),
      zero_add]
  have htlt : truncate_to_level x lv < 2 ^ 64 := by
    have hd : truncate_to_level x lv / 2 ^ 61 = x / 2 ^ 61 := by
      rw [← Nat.shiftRight_eq_div_pow, ← Nat.shiftRight_eq_div_pow, hshift]
    have hx5 : x / 2 ^ 61 ≤ 5 := by
      rw [← Nat.shiftRight_eq_div_pow]
      exact hsh
    have h61 : (2 : ℕ) ^ 61 = 2305843009213693952 := by norm_num
    rw [h61] at hd hx5
    omega
  refine ⟨?_, hctz, hshift⟩
  rw [valid_iff htlt]
  refine ⟨?_, by rw [hshift]; exact hsh, by omega, by omega⟩
  rw [heq]
  positivity

/-- Branch structure of `cell_id_to_parent_cell_id` on a valid id with an
explicit level. -/
theorem parent_some_eq (id : ℕ) (hv : cell_id_is_valid id = true) (L : ℤ) :
    cell_id_to_parent_cell_id id (some L) =
      if L < 0 ∨ L > 30 then .error .valueError
      else if L > (30 : ℤ) - (ctz id >>> 1 : ℕ) then .error .valueError
      else if L = (30 : ℤ) - (ctz id >>> 1 : ℕ) then .ok id
      else .ok (truncate_to_level id L.toNat) := by
  unfold cell_id_to_parent_cell_id
  rw [if_neg (by simp [hv]), if_neg (by simp)]
  rfl

/-- Branch structure of `cell_id_to_parent_cell_id` on a valid id with the
level omitted. -/
theorem parent_none_eq (id : ℕ) (hv : cell_id_is_valid id = true) :
    cell_id_to_parent_cell_id id none =
      if (30 : ℤ) - (ctz id >>> 1 : ℕ) = 0 then .error .valueError
      else
        if ((30 : ℤ) - (ctz id >>> 1 : ℕ)) - 1 < 0 ∨
            ((30 : ℤ) - (ctz id >>> 1 : ℕ)) - 1 > 30 then .error .valueError
        else if ((30 : ℤ) - (ctz id >>> 1 : ℕ)) - 1 >
            (30 : ℤ) - (ctz id >>> 1 : ℕ) then .error .valueError
        else if ((30 : ℤ) - (ctz id >>> 1 : ℕ)) - 1 =
            (30 : ℤ) - (ctz id >>> 1 : ℕ) then .ok id
        else .ok (truncate_to_level id (((30 : ℤ) - (ctz id >>> 1 : ℕ)) - 1).toNat) := by
  unfold cell_id_to_parent_cell_id
  rw [if_neg (by simp [hv])]
  simp only [show ((S2_MAX_LEVEL : ℕ) : ℤ) = (30 : ℤ) from rfl]
  by_cases h0 : (30 : ℤ) - (ctz id >>> 1 : ℕ) = 0
  · rw [if_pos (by exact ⟨trivial, h0⟩), if_pos h0]
  · rw [if_neg (by simp [h0]), if_neg h0]
    rfl

/-- Inversion of a successful `cell_id_to_level`: the id is valid and the
level is `30 − ctz/2 ∈ [0, 30]`. -/
theorem level_ok_inv {id : ℕ} {l : ℤ} (hl : cell_id_to_level id = .ok l) :
    cell_id_is_valid id = true ∧ l = (30 : ℤ) - (ctz id >>> 1 : ℕ) ∧
      0 ≤ l ∧ l ≤ 30 := by
  have hv : cell_id_is_valid id = true := by
    by_contra hc
    unfold cell_id_to_level at hl
    rw [if_pos (by simpa using hc)] at hl
    exact Except.noConfusion hl
  have hlt := (valid_lt hv).2.2
  have h60 := ((valid_iff hlt).mp hv).2.2.2
  have hsh : ctz id >>> 1 = ctz id / 2 := by
    rw [Nat.shiftRight_succ, Nat.shiftRight_zero]
  unfold cell_id_to_level at hl
  rw [if_neg (by simp [hv])] at hl
  injection hl with h'
  have h'' : l = (30 : ℤ) - ((ctz id >>> 1 : ℕ) : ℤ) := h'.symm
  have h30 : ctz id >>> 1 ≤ 30 := by
    rw [hsh]
    omega
  exact ⟨hv, h'', by omega, by omega⟩

/-- C6: parent truncation is idempotent: for a valid id and any level `L`
with `0 ≤ L ≤ cell_id_to_level(id)`, truncating the truncation at `L` again
to `L` returns it unchanged. -/
theorem c6_parent_idempotent (id : ℕ) (l L : ℤ)
    (hl : cell_id_to_level id = .ok l) (h0 : 0 ≤ L) (hL : L ≤ l) :
    ∃ r, cell_id_to_parent_cell_id id (some L) = .ok r ∧
      cell_id_to_parent_cell_id r (some L) = .ok r := by
  obtain ⟨hv, hlv, hl0, hl30⟩ := level_ok_inv hl
  by_cases hcase : L = l
  · refine ⟨id, ?_, ?_⟩ <;>
      rw [parent_some_eq id hv L, if_neg (by omega), if_neg (by omega),
        if_pos (by omega)]
  · have hLlt : L < l := by omega
    have hL30 : L.toNat ≤ 30 := by omega
    obtain ⟨hrv, hrctz, hrsh⟩ := truncate_props id L.toNat hv hL30
    have hrc : ctz (truncate_to_level id L.toNat) >>> 1 = 30 - L.toNat := by
      rw [Nat.shiftRight_succ, Nat.shiftRight_zero, hrctz]
      omega
    have hrlevel : (30 : ℤ) - (ctz (truncate_to_level id L.toNat) >>> 1 : ℕ) = L := by
      rw [hrc]
      omega
    refine ⟨truncate_to_level id L.toNat, ?_, ?_⟩
    · rw [parent_some_eq id hv L, if_neg (by omega), if_neg (by omega),
        if_neg (by omega)]
    · rw [parent_some_eq _ hrv L, hrlevel, if_neg (by omega),
        if_neg (by omega), if_pos rfl]

/-- C6 witness: the level-12 cell `0x466d319000000000` truncated to level 5
twice. -/
theorem c6_witness :
    ∃ r, cell_id_to_parent_cell_id 5074766849661468672 (some 5) = .ok r ∧
      cell_id_to_parent_cell_id r (some 5) = .ok r :=
  c6_parent_idempotent 5074766849661468672 12 5 (by decide) (by norm_num)
    (by norm_num)

/-- C7: for a valid id, `cell_id_to_parent_cell_id` with no level fails when
the current level is 0 and otherwise defaults to the current level minus 1;
it fails whenever the requested level exceeds the current level; and it
returns the id unchanged at the current level. -/
theorem c7_parent_level_handling (id : ℕ) (l : ℤ)
    (hl : cell_id_to_level id = .ok l) :
    (l = 0 → cell_id_to_parent_cell_id id none = .error .valueError) ∧
    (0 < l → cell_id_to_parent_cell_id id none =
      cell_id_to_parent_cell_id id (some (l - 1))) ∧
    (∀ L : ℤ, l < L →
      cell_id_to_parent_cell_id id (some L) = .error .valueError) ∧
    cell_id_to_parent_cell_id id (some l) = .ok id := by
  obtain ⟨hv, hlv, hl0, hl30⟩ := level_ok_inv hl
  refine ⟨?_, ?_, ?_, ?_⟩
  · intro hz
    rw [parent_none_eq id hv, if_pos (by omega)]
  · intro hpos
    rw [parent_none_eq id hv, if_neg (by omega), parent_some_eq id hv (l - 1),
      ← hlv]
    norm_num
  · intro L hLgt
    rw [parent_some_eq id hv L]
    by_cases hr : L > 30
    · rw [if_pos (by omega)]
    · rw [if_neg (by omega), if_pos (by omega)]
  · rw [parent_some_eq id hv l, if_neg (by omega), if_neg (by omega),
      if_pos (by omega)]

/-- C7 witness: the level-0 cell `2^60` has no default parent, and the
level-30 cell `0x1000000000000001` rejects level 31 and is its own level-30
parent. -/
theorem c7_witness :
    cell_id_to_parent_cell_id 1152921504606846976 none = .error .valueError ∧
    cell_id_to_parent_cell_id 1152921504606846977 (some 31) =
      .error .valueError ∧
    cell_id_to_parent_cell_id 1152921504606846977 (some 30) =
      .ok 1152921504606846977 :=
  ⟨(c7_parent_level_handling 1152921504606846976 0 (by decide)).1 rfl,
   (c7_parent_level_handling 1152921504606846977 30 (by decide)).2.2.1 31
     (by norm_num),
   (c7_parent_level_handling 1152921504606846977 30 (by decide)).2.2.2⟩

/-!  ## C4: encoding the origin at level 30

Every floating-point operation the Python code performs at `lat = lon = 0`
is exact (`radians(0) = 0.0`, `sin(0.0) = 0.0`, `cos(0.0) = 1.0`,
`sqrt(1.0) = 1.0`, and `2^30 · 0.5` is integral), so the exact real-number
front end below computes the same face and IJ as the doubles do. -/

theorem s2_point_origin : s2_point_from_lat_lon 0 0 = (1, 0, 0) := by
  unfold s2_point_from_lat_lon
  norm_num

theorem face_origin : face_of_s2_point (1, 0, 0) = 0 := by
  unfold face_of_s2_point xyzToFace getComp
  norm_num

theorem uv_origin : uv_of_face (1, 0, 0) 0 = (0, 0) := by
  unfold uv_of_face getComp
  norm_num

theorem st_origin : s2_uv_to_st 0 = 1 / 2 := by
  unfold s2_uv_to_st
  rw [if_pos (le_refl 0)]
  norm_num [Real.sqrt_one]

theorem ij_origin : s2_st_to_ij (1 / 2) = 536870912 := by
  unfold s2_st_to_ij
  rw [show (2 ^ 30 : ℝ) * (1 / 2) = ((536870912 : ℤ) : ℝ) from by norm_num,
    Int.floor_intCast]
  norm_num
  decide

/-- C4: `lat_lon_to_cell_id(0, 0, 30)` is exactly `1152921504606846977` and
`lat_lon_to_token(0, 0, 30)` is the token `"1000000000000001"`. -/
theorem c4_origin_level30 :
    lat_lon_to_cell_id 0 0 30 = .ok 1152921504606846977 ∧
    lat_lon_to_token 0 0 30 =
      .ok [49, 48, 48, 48, 48, 48, 48, 48, 48, 48, 48, 48, 48, 48, 48, 49] := by
  have hmain : lat_lon_to_cell_id 0 0 30 = .ok 1152921504606846977 := by
    unfold lat_lon_to_cell_id
    rw [if_neg (by norm_num)]
    simp only [s2_point_origin, face_origin, uv_origin, st_origin, ij_origin]
    rw [show ((30 : ℤ).toNat) = 30 from rfl]
    decide
  refine ⟨hmain, ?_⟩
  unfold lat_lon_to_token
  rw [hmain]
  decide

/-!  ## String helper lemmas -/

theorem mem_of_head? {l : List ℕ} {x : ℕ} (h : l.head? = some x) : x ∈ l := by
  cases l with
  | nil => simp at h
  | cons a t =>
    rw [List.head?_cons] at h
    injection h with h'
    rw [← h']
    exact List.mem_cons_self a t

theorem dropWhile_eq_self_of_all {p : ℕ → Bool} {l : List ℕ}
    (h : ∀ c ∈ l, p c = false) : l.dropWhile p = l := by
  cases l with
  | nil => rfl
  | cons a t =>
    rw [List.dropWhile_cons, if_neg (by simp [h a (List.mem_cons_self a t)])]

theorem dropWhile_eq_self_of_head_not {p : ℕ → Bool} {l : List ℕ}
    (h : ∀ x, l.head? = some x → p x = false) : l.dropWhile p = l := by
  cases l with
  | nil => rfl
  | cons a t =>
    rw [List.dropWhile_cons, if_neg (by simp [h a rfl])]

theorem dropWhile_head_not {p : ℕ → Bool} :
    ∀ (l : List ℕ) (x : ℕ), (l.dropWhile p).head? = some x → p x = false := by
  intro l
  induction l with
  | nil =>
    intro x hx
    simp [List.dropWhile] at hx
  | cons a t ih =>
    intro x hx
    rw [List.dropWhile_cons] at hx
    by_cases hp : p a = true
    · rw [if_pos hp] at hx
      exact ih x hx
    · rw [if_neg hp] at hx
      rw [List.head?_cons] at hx
      injection hx with h'
      rw [← h']
      exact Bool.eq_false_iff.mpr hp

theorem mem_rdropCp {p : ℕ → Bool} {l : List ℕ} {x : ℕ}
    (h : x ∈ rdropCp p l) : x ∈ l := by
  unfold rdropCp at h
  rw [List.mem_reverse] at h
  exact List.mem_reverse.mp ((List.dropWhile_sublist p).subset h)

theorem rdropCp_append (p : ℕ → Bool) (l : List ℕ) :
    rdropCp p l ++ (l.reverse.takeWhile p).reverse = l := by
  unfold rdropCp
  rw [← List.reverse_append, List.takeWhile_append_dropWhile,
    List.reverse_reverse]

theorem rdropCp_last_not {p : ℕ → Bool} {l : List ℕ} {x : ℕ}
    (h : (rdropCp p l).getLast? = some x) : p x = false := by
  unfold rdropCp at h
  rw [List.getLast?_reverse] at h
  exact dropWhile_head_not _ x h

theorem rdropCp_eq_self {p : ℕ → Bool} {l : List ℕ}
    (h : ∀ x, l.getLast? = some x → p x = false) : rdropCp p l = l := by
  unfold rdropCp
  have hd : l.reverse.dropWhile p = l.reverse := by
    apply dropWhile_eq_self_of_head_not
    intro x hx
    rw [List.head?_reverse] at hx
    exact h x hx
  rw [hd, List.reverse_reverse]

theorem rdropCp_head {p : ℕ → Bool} {l : List ℕ}
    (hne : rdropCp p l ≠ []) : (rdropCp p l).head? = l.head? := by
  conv_rhs => rw [← rdropCp_append p l]
  exact (List.head?_append_of_ne_nil _ hne).symm

theorem rstripZeros_decomp (l : List ℕ) :
    rstripZeros l ++ List.replicate (l.length - (rstripZeros l).length) 48 = l := by
  have h1 := rdropCp_append (fun c => c = 48) l
  have h2 : (l.reverse.takeWhile (fun c => c = 48)).reverse =
      List.replicate (l.reverse.takeWhile (fun c => c = 48)).reverse.length 48 := by
    rw [List.eq_replicate_iff]
    refine ⟨rfl, ?_⟩
    intro b hb
    rw [List.mem_reverse] at hb
    simpa using List.mem_takeWhile_imp hb
  have hlen : l.length - (rstripZeros l).length =
      (l.reverse.takeWhile (fun c => c = 48)).reverse.length := by
    have h3 := congrArg List.length h1
    rw [List.length_append] at h3
    unfold rstripZeros
    omega
  calc rstripZeros l ++ List.replicate (l.length - (rstripZeros l).length) 48
      = rstripZeros l ++ (l.reverse.takeWhile (fun c => c = 48)).reverse := by
        rw [hlen, ← h2]
    _ = l := h1

/-!  ## Hex parsing lemmas -/

theorem isHexDigitCp_iff {c : ℕ} :
    isHexDigitCp c = true ↔
      (48 ≤ c ∧ c ≤ 57) ∨ (97 ≤ c ∧ c ≤ 102) ∨ (65 ≤ c ∧ c ≤ 70) := by
  simp [isHexDigitCp]

theorem isSpaceCp_false_of_hex {c : ℕ} (h : isHexDigitCp c = true) :
    isSpaceCp c = false := by
  rw [isHexDigitCp_iff] at h
  simp [isSpaceCp]
  omega

theorem isIntSpaceCp_false_of_hex {c : ℕ} (h : isHexDigitCp c = true) :
    isIntSpaceCp c = false := by
  unfold isIntSpaceCp
  rw [isSpaceCp_false_of_hex h]
  rfl

theorem pyStrip_all_hex {l : List ℕ}
    (h : ∀ c ∈ l, isHexDigitCp c = true) : pyStrip l = l := by
  unfold pyStrip
  rw [dropWhile_eq_self_of_all (fun c hc => isSpaceCp_false_of_hex (h c hc))]
  apply rdropCp_eq_self
  intro x hx
  rw [List.getLast?_eq_head?_reverse] at hx
  exact isSpaceCp_false_of_hex (h x (List.mem_reverse.mp (mem_of_head? hx)))

theorem pyIntStrip_all_hex {l : List ℕ}
    (h : ∀ c ∈ l, isHexDigitCp c = true) : pyIntStrip l = l := by
  unfold pyIntStrip
  rw [dropWhile_eq_self_of_all (fun c hc => isIntSpaceCp_false_of_hex (h c hc))]
  apply rdropCp_eq_self
  intro x hx
  rw [List.getLast?_eq_head?_reverse] at hx
  exact isIntSpaceCp_false_of_hex (h x (List.mem_reverse.mp (mem_of_head? hx)))

theorem goHexDigits_all_hex :
    ∀ (l : List ℕ) (a : ℕ), (∀ c ∈ l, isHexDigitCp c = true) →
      goHexDigits l a = some (l.foldl (fun acc ch => 16 * acc + hexVal ch) a) := by
  intro l
  induction l with
  | nil => intro a _; rfl
  | cons c t ih =>
    intro a h
    have hc := h c (List.mem_cons_self c t)
    have ht : ∀ d ∈ t, isHexDigitCp d = true :=
      fun d hd => h d (List.mem_cons_of_mem c hd)
    cases t with
    | nil => simp [goHexDigits, hc]
    | cons d t' =>
      simp only [goHexDigits, hc, if_true, List.foldl_cons]
      exact ih _ ht

theorem parseHexRun_all_hex {l : List ℕ} (hne : l ≠ [])
    (h : ∀ c ∈ l, isHexDigitCp c = true) :
    parseHexRun l = some (hexListVal l) := by
  cases l with
  | nil => exact absurd rfl hne
  | cons c t =>
    have hc := h c (List.mem_cons_self c t)
    simp only [parseHexRun, hc, if_true]
    exact goHexDigits_all_hex _ 0 h

theorem pyIntHexCore_all_hex {l : List ℕ} (hne : l ≠ [])
    (h : ∀ c ∈ l, isHexDigitCp c = true) :
    pyIntHexCore l = some (hexListVal l) := by
  cases l with
  | nil => exact absurd rfl hne
  | cons c0 t =>
    cases t with
    | nil => exact parseHexRun_all_hex hne h
    | cons c1 t' =>
      have hc1 := h c1 (List.mem_cons_of_mem c0 (List.mem_cons_self c1 t'))
      have hnp : ¬(c0 = 48 ∧ (c1 = 120 ∨ c1 = 88)) := by
        rw [isHexDigitCp_iff] at hc1
        rintro ⟨_, h120 | h88⟩ <;> omega
      simp only [pyIntHexCore]
      rw [if_neg hnp]
      exact parseHexRun_all_hex hne h

theorem pyIntHex_all_hex {l : List ℕ} (hne : l ≠ [])
    (h : ∀ c ∈ l, isHexDigitCp c = true) :
    pyIntHex l = some ((hexListVal l : ℕ) : ℤ) := by
  unfold pyIntHex
  rw [pyIntStrip_all_hex h]
  cases l with
  | nil => exact absurd rfl hne
  | cons c0 t =>
    have hc0 := h c0 (List.mem_cons_self c0 t)
    rw [isHexDigitCp_iff] at hc0
    simp only [pyIntHexSigned]
    rw [if_neg (by omega), if_neg (by omega),
      pyIntHexCore_all_hex hne h]
    rfl

/-!  ## Formatting lemmas -/

theorem hexVal_hexDigitCp : ∀ d < 16, hexVal (hexDigitCp d) = d := by decide

theorem hexRev_length : ∀ (n c : ℕ), (hexRev c n).length = n := by
  intro n
  induction n with
  | zero => intro c; rfl
  | succ n ih =>
    intro c
    simp [hexRev, ih]

theorem hexRev_all_hex : ∀ (n c : ℕ), ∀ x ∈ hexRev c n, isHexDigitCp x = true := by
  intro n
  induction n with
  | zero =>
    intro c x hx
    simp [hexRev] at hx
  | succ n ih =>
    intro c x hx
    rw [show hexRev c (n + 1) = hexDigitCp (c % 16) :: hexRev (c / 16) n from rfl]
      at hx
    rcases List.mem_cons.mp hx with rfl | hmem
    · have hd : c % 16 < 16 := Nat.mod_lt _ (by norm_num)
      have hall : ∀ d < 16, isHexDigitCp (hexDigitCp d) = true := by decide
      exact hall _ hd
    · exact ih (c / 16) x hmem

theorem foldl_hexRev (n : ℕ) : ∀ (c a : ℕ),
    ((hexRev c n).reverse).foldl (fun acc ch => 16 * acc + hexVal ch) a =
      a * 16 ^ n + c % 16 ^ n := by
  induction n with
  | zero =>
    intro c a
    simp [hexRev, Nat.mod_one]
  | succ n ih =>
    intro c a
    rw [show hexRev c (n + 1) = hexDigitCp (c % 16) :: hexRev (c / 16) n from rfl,
      List.reverse_cons, List.foldl_append, ih, List.foldl_cons, List.foldl_nil,
      hexVal_hexDigitCp _ (Nat.mod_lt _ (by norm_num))]
    have hm : 0 < (16 : ℕ) ^ n := pow_pos (by norm_num) n
    have hmod : c % 16 ^ (n + 1) = 16 * (c / 16 % 16 ^ n) + c % 16 := by
      have hsplit : c = (16 * (c / 16 % 16 ^ n) + c % 16) +
          (16 * 16 ^ n) * (c / 16 / 16 ^ n) := by
        have e1 := Nat.div_add_mod c 16
        have e2 := Nat.div_add_mod (c / 16) (16 ^ n)
        calc c = 16 * (c / 16) + c % 16 := by omega
        _ = 16 * (16 ^ n * (c / 16 / 16 ^ n) + c / 16 % 16 ^ n) + c % 16 := by
            rw [e2]
        _ = (16 * (c / 16 % 16 ^ n) + c % 16) + (16 * 16 ^ n) * (c / 16 / 16 ^ n) := by
            ring
      calc c % 16 ^ (n + 1) = c % (16 * 16 ^ n) := by rw [pow_succ']
      _ = ((16 * (c / 16 % 16 ^ n) + c % 16) + (16 * 16 ^ n) * (c / 16 / 16 ^ n)) %
            (16 * 16 ^ n) := by rw [← hsplit]
      _ = (16 * (c / 16 % 16 ^ n) + c % 16) % (16 * 16 ^ n) :=
            Nat.add_mul_mod_self_left _ _ _
      _ = 16 * (c / 16 % 16 ^ n) + c % 16 := by
            apply Nat.mod_eq_of_lt
            have h1 : c / 16 % 16 ^ n < 16 ^ n := Nat.mod_lt _ hm
            have h2 : c % 16 < 16 := Nat.mod_lt _ (by norm_num)
            omega
    rw [hmod, pow_succ]
    ring

/-- C1: decoding the token of any 64-bit cell ID (valid or not, including
0) recovers the cell ID exactly. -/
theorem c1_token_roundtrip (c : ℕ) (h : c < 2 ^ 64) :
    token_to_cell_id (cell_id_to_token c) = .ok (c : ℤ) := by
  by_cases hc : c = 0
  · subst hc
    decide
  · have hfmt_len : (format16 c).length = 16 := by
      unfold format16
      rw [List.length_reverse, hexRev_length]
    have hall : ∀ x ∈ format16 c, isHexDigitCp x = true := by
      intro x hx
      unfold format16 at hx
      exact hexRev_all_hex 16 c x (List.mem_reverse.mp hx)
    have htok : cell_id_to_token c = rstripZeros (format16 c) := by
      unfold cell_id_to_token
      rw [if_neg hc]
    have hdecomp := rstripZeros_decomp (format16 c)
    have hlen16 : (rstripZeros (format16 c)).length +
        ((format16 c).length - (rstripZeros (format16 c)).length) = 16 := by
      have h3 := congrArg List.length hdecomp
      rw [List.length_append, List.length_replicate] at h3
      omega
    have htmem : ∀ x ∈ rstripZeros (format16 c), isHexDigitCp x = true :=
      fun x hx => hall x (mem_rdropCp hx)
    rw [htok]
    unfold token_to_cell_id
    rw [if_neg (by omega), if_neg ?hnx]
    case hnx =>
      rintro (h120 | h88)
      · exact absurd (htmem 120 (by rw [h120]; exact List.mem_cons_self _ _))
          (by decide)
      · exact absurd (htmem 88 (by rw [h88]; exact List.mem_cons_self _ _))
          (by decide)
    have hpad : rstripZeros (format16 c) ++
        List.replicate (16 - (rstripZeros (format16 c)).length) 48 = format16 c := by
      rw [show 16 - (rstripZeros (format16 c)).length =
        (format16 c).length - (rstripZeros (format16 c)).length from by omega]
      exact hdecomp
    rw [hpad]
    have hne : format16 c ≠ [] := by
      intro hnil
      rw [hnil] at hfmt_len
      simp at hfmt_len
    rw [pyIntHex_all_hex hne hall]
    have hval : hexListVal (format16 c) = c := by
      unfold hexListVal format16
      rw [foldl_hexRev, zero_mul, zero_add]
      exact Nat.mod_eq_of_lt (by
        rw [show (16 : ℕ) ^ 16 = 2 ^ 64 from by norm_num]
        exact h)
    rw [hval]

/-- C1 witness: round trip through the token of `0x1000000000000001`. -/
theorem c1_witness :
    token_to_cell_id (cell_id_to_token 1152921504606846977) =
      .ok 1152921504606846977 := by
  exact_mod_cast c1_token_roundtrip 1152921504606846977 (by norm_num)

/-- C8 (amended): `token_to_cell_id` rejects with `InvalidToken` *exactly*
when the token is longer than 16 characters — the if-and-only-if holds for
every string, so a token of at most 16 characters never yields
`InvalidToken` whatever characters it contains; it returns 0 on `'x'`/`'X'`;
and a token of 1–16 hex digits is right-padded with `'0'` to 16 characters
and parsed as hexadecimal.  A non-hex character therefore never produces
`InvalidToken`: on `"g"` the `int(…, 16)` parse raises `ValueError` instead
(see the counterexample). -/
theorem c8_token_to_cell_id (t : List ℕ) :
    (token_to_cell_id t = .error .invalidToken ↔ t.length > 16) ∧
    ((t = [120] ∨ t = [88]) → token_to_cell_id t = .ok 0) ∧
    ((1 ≤ t.length ∧ t.length ≤ 16 ∧ ∀ ch ∈ t, isHexDigitCp ch = true) →
      token_to_cell_id t =
        .ok ((hexListVal (t ++ List.replicate (16 - t.length) 48) : ℕ) : ℤ)) := by
  refine ⟨?_, ?_, ?_⟩
  · constructor
    · intro h
      by_contra hlen
      unfold token_to_cell_id at h
      rw [if_neg hlen] at h
      by_cases hx : t = [120] ∨ t = [88]
      · rw [if_pos hx] at h
        exact Except.noConfusion h
      · rw [if_neg hx] at h
        cases hp : pyIntHex (t ++ List.replicate (16 - t.length) 48) with
        | some v =>
          rw [hp] at h
          exact Except.noConfusion h
        | none =>
          rw [hp] at h
          injection h with h'
          exact S2Error.noConfusion h'
    · intro hlen
      unfold token_to_cell_id
      rw [if_pos hlen]
  · intro hx
    unfold token_to_cell_id
    rw [if_neg (by rcases hx with rfl | rfl <;> decide), if_pos hx]
  · rintro ⟨h1, h16, hhex⟩
    unfold token_to_cell_id
    rw [if_neg (by omega), if_neg ?hx2]
    case hx2 =>
      rintro (h120 | h88)
      · exact absurd (hhex 120 (by rw [h120]; exact List.mem_cons_self _ _))
          (by decide)
      · exact absurd (hhex 88 (by rw [h88]; exact List.mem_cons_self _ _))
          (by decide)
    have hallpad : ∀ ch ∈ t ++ List.replicate (16 - t.length) 48,
        isHexDigitCp ch = true := by
      intro ch hch
      rcases List.mem_append.mp hch with hm | hm
      · exact hhex ch hm
      · rw [List.eq_of_mem_replicate hm]
        decide
    have hnepad : t ++ List.replicate (16 - t.length) 48 ≠ [] := by
      intro hnil
      have hl := congrArg List.length hnil
      rw [List.length_append, List.length_replicate, List.length_nil] at hl
      omega
    rw [pyIntHex_all_hex hnepad hallpad]

/-- C8 witness: the single-digit token `"a"` padded to 16 characters parses
to `0xa000000000000000`, and a 17-character token is rejected with
`InvalidToken`. -/
theorem c8_witness :
    token_to_cell_id [97] = .ok 11529215046068469760 ∧
    token_to_cell_id (List.replicate 17 48) = .error .invalidToken := by
  constructor
  · have h := (c8_token_to_cell_id [97]).2.2 ⟨by norm_num, by norm_num, by decide⟩
    rw [h]
    decide
  · exact (c8_token_to_cell_id (List.replicate 17 48)).1.mpr (by decide)

/-!  ## Canonicalisation lemmas -/

theorem lowerCp_lowerCp (c : ℕ) : lowerCp (lowerCp c) = lowerCp c := by
  unfold lowerCp
  by_cases h : 65 ≤ c ∧ c ≤ 90
  · rw [if_pos h, if_neg (by omega)]
  · rw [if_neg h, if_neg h]

theorem map_fix {f : ℕ → ℕ} : ∀ {l : List ℕ}, (∀ x ∈ l, f x = x) →
    l.map f = l := by
  intro l
  induction l with
  | nil => intro _; rfl
  | cons a u ih =>
    intro h
    simp [h a (List.mem_cons_self a u),
      ih (fun x hx => h x (List.mem_cons_of_mem a hx))]

/-- C10 (amended): the canonical token is `'X'` or a non-empty lower-case
string with no leading whitespace and no trailing `'0'`; canonicalisation
is idempotent whenever its result carries no *trailing* whitespace (in
particular on every token without whitespace).  Trailing whitespace can
survive — stripping `'0'` may expose it (`"a 0" ↦ "a "`) — and there
idempotence fails (see the counterexample).  Stated over ASCII tokens
(every code point below 128), the domain on which `lowerCp` is exactly
Python `str.lower`: non-ASCII cased letters start at `U+00C0` and are
outside the embedding. -/
theorem c10_canonical_amended (t : List ℕ) (_hascii : ∀ c ∈ t, c < 128) :
    (token_to_canonical_token t = [88] ∨
      (token_to_canonical_token t ≠ [] ∧
        (∀ ch ∈ token_to_canonical_token t, lowerCp ch = ch) ∧
        (∀ ch, (token_to_canonical_token t).head? = some ch →
          isSpaceCp ch = false) ∧
        (∀ ch, (token_to_canonical_token t).getLast? = some ch → ch ≠ 48))) ∧
    ((∀ ch, (token_to_canonical_token t).getLast? = some ch →
        isSpaceCp ch = false) →
      token_to_canonical_token (token_to_canonical_token t) =
        token_to_canonical_token t) := by
  have hdefg : ∀ s : List ℕ, token_to_canonical_token s =
      if rstripZeros (pyStrip (s.map lowerCp)) = [] ∨
          rstripZeros (pyStrip (s.map lowerCp)) = [120] then [88]
      else rstripZeros (pyStrip (s.map lowerCp)) := fun s => rfl
  by_cases hY : rstripZeros (pyStrip (t.map lowerCp)) = [] ∨
      rstripZeros (pyStrip (t.map lowerCp)) = [120]
  · have hr : token_to_canonical_token t = [88] := by rw [hdefg, if_pos hY]
    refine ⟨Or.inl hr, fun _ => ?_⟩
    rw [hr]
    decide
  · have hr : token_to_canonical_token t =
        rstripZeros (pyStrip (t.map lowerCp)) := by rw [hdefg, if_neg hY]
    push_neg at hY
    obtain ⟨hne, hnx⟩ := hY
    have hmem1 : ∀ ch ∈ rstripZeros (pyStrip (t.map lowerCp)), ch ∈ t.map lowerCp := by
      intro ch hch
      have h2 : ch ∈ pyStrip (t.map lowerCp) := mem_rdropCp hch
      unfold pyStrip at h2
      exact (List.dropWhile_sublist isSpaceCp).subset (mem_rdropCp h2)
    have hlower : ∀ ch ∈ rstripZeros (pyStrip (t.map lowerCp)), lowerCp ch = ch := by
      intro ch hch
      obtain ⟨b, _, rfl⟩ := List.mem_map.mp (hmem1 ch hch)
      exact lowerCp_lowerCp b
    have hstrip_ne : pyStrip (t.map lowerCp) ≠ [] := by
      intro h0
      exact hne (by rw [h0]; rfl)
    have hhead : ∀ ch, (rstripZeros (pyStrip (t.map lowerCp))).head? = some ch →
        isSpaceCp ch = false := by
      intro ch hch
      have e1 : (rstripZeros (pyStrip (t.map lowerCp))).head? =
          (pyStrip (t.map lowerCp)).head? := rdropCp_head hne
      have e2 : (pyStrip (t.map lowerCp)).head? =
          ((t.map lowerCp).dropWhile isSpaceCp).head? := rdropCp_head hstrip_ne
      rw [e1, e2] at hch
      exact dropWhile_head_not _ ch hch
    have hlast : ∀ ch, (rstripZeros (pyStrip (t.map lowerCp))).getLast? = some ch →
        ch ≠ 48 := by
      intro ch hch
      simpa using rdropCp_last_not hch
    constructor
    · right
      rw [hr]
      exact ⟨hne, hlower, hhead, hlast⟩
    · intro hts
      rw [hr] at hts ⊢
      have hmapfix : (rstripZeros (pyStrip (t.map lowerCp))).map lowerCp =
          rstripZeros (pyStrip (t.map lowerCp)) := map_fix hlower
      have hstripfix : pyStrip (rstripZeros (pyStrip (t.map lowerCp))) =
          rstripZeros (pyStrip (t.map lowerCp)) := by
        show rdropCp isSpaceCp
          ((rstripZeros (pyStrip (t.map lowerCp))).dropWhile isSpaceCp) =
          rstripZeros (pyStrip (t.map lowerCp))
        rw [dropWhile_eq_self_of_head_not hhead]
        exact rdropCp_eq_self hts
      have hrstripfix : rstripZeros (rstripZeros (pyStrip (t.map lowerCp))) =
          rstripZeros (pyStrip (t.map lowerCp)) :=
        rdropCp_eq_self (fun x hx => by simp [hlast x hx])
      rw [hdefg, hmapfix, hstripfix, hrstripfix,
        if_neg (not_or.mpr ⟨hne, hnx⟩)]

/-- C10 witness: canonicalisation applied twice to the whitespace-free
token `"ab"`. -/
theorem c10_witness :
    token_to_canonical_token (token_to_canonical_token [97, 98]) =
      token_to_canonical_token [97, 98] :=
  (c10_canonical_amended [97, 98] (by decide)).2 (by
    intro ch hch
    rw [show token_to_canonical_token [97, 98] = [97, 98] from by decide] at hch
    rw [show ([97, 98] : List ℕ).getLast? = some 98 from by decide] at hch
    injection hch with h'
    rw [← h']
    decide)
